import Mathlib

/-!
Verification of the orchestration and evidence-fusion core of the `law_chat`
repository against its natural-language specification.

Each section shallowly embeds one source module:
* `Reranker`     — `src/lex_bot/tools/reranker.py` (`rerank_documents`)
* `Router`       — `src/lex_bot/core/router.py` (`QueryRouter.classify`)
* `Manager`      — `src/lex_bot/agents/manager.py` (`ManagerAgent.classify_and_route`)
* `LexGraph`     — `src/lex_bot/graph.py` (routing functions of the LangGraph wiring)
* `HybridSearch` — `src/search.py` (`hybrid_search` score fusion)
* `WebSearch`    — `src/lex_bot/tools/web_search.py` and `src/lex_bot/tools/db_search.py`
* `SessionCache` — `src/lex_bot/tools/session_cache.py`

Numeric scores are Python floats in the source; they are modelled by `ℚ`.
External effects (LLM calls, network search, FAISS, SQL, the cross-encoder
model and its sigmoid on floats) are modelled as explicit function
parameters, so every definition stays computable and the control flow of the
Python source is reproduced exactly.
-/

namespace LawChat

/-- Python falsy-chaining `a or b` for optional strings: a missing value or
the empty string falls through to the alternative. -/
def pyOrStr (a : Option String) (b : String) : String :=
  match a with
  | some s => if s = "" then b else s
  | none => b

/-- Association-list lookup (Python `dict` access / `in` test). -/
def lookupA {β : Type} (k : String) : List (String × β) → Option β
  | [] => none
  | (k', v) :: rest => if k' = k then some v else lookupA k rest

/-- Python `d[k] = v` on a dict: overwrite the value if the key is present,
otherwise append the new binding. -/
def setA {β : Type} (l : List (String × β)) (k : String) (v : β) : List (String × β) :=
  if (lookupA k l).isSome then
    l.map (fun p => if p.1 = k then (k, v) else p)
  else l ++ [(k, v)]

end LawChat

namespace Reranker

/-- An evidence fragment as passed to `rerank_documents`
(`src/lex_bot/tools/reranker.py`).  The dict keys actually read or written by
the function are explicit fields; `rest` stands for all other key/value pairs
of the candidate dict, which the function never touches. -/
structure Candidate where
  title : Option String
  heading : Option String
  search_hit : Option String
  text : Option String
  rerank_score : Option ℚ
  raw_rerank_score : Option ℚ
  rest : List (String × String)
  deriving Repr, DecidableEq

/-- Embedding of `_build_text_for_rerank` (reranker.py lines 32-36):
`title`/`heading` default to `""`; the body is
`c.get("search_hit") or c.get("text") or ""` (Python falsy chaining); the
pieces are joined as `f"{title} > {heading}: {body}"` and stripped. -/
def buildTextForRerank (c : Candidate) : String :=
  let title := c.title.getD ""
  let heading := c.heading.getD ""
  let body := LawChat.pyOrStr c.search_hit (LawChat.pyOrStr c.text "")
  (title ++ " > " ++ heading ++ ": " ++ body).trim

/-- The neutral-score assignment of the model-unavailable fallback
(reranker.py lines 53-55): `if 'rerank_score' not in c: c['rerank_score'] = 0.5`. -/
def fillNeutral (c : Candidate) : Candidate :=
  if c.rerank_score.isSome then c else { c with rerank_score := some (1/2) }

/-- Score assignment of the success path (reranker.py lines 72-74): the raw
cross-encoder score `s = f query (buildTextForRerank c)` is stored in
`raw_rerank_score` and its sigmoid in `rerank_score`.  `sig` models
`_sigmoid` (line 38-39, `1/(1+exp(-x))` on floats) and `f` models
`rr.predict` applied to the pair `(query, text)`. -/
def scoreCand (sig : ℚ → ℚ) (f : String → String → ℚ) (query : String) (c : Candidate) :
    Candidate :=
  let s := f query (buildTextForRerank c)
  { c with rerank_score := some (sig s), raw_rerank_score := some s }

/-- The sort key of `candidates.sort(key=lambda x: x['rerank_score'], reverse=True)`. -/
def rsKey (c : Candidate) : ℚ := c.rerank_score.getD 0

/-- Descending order on `rerank_score` used by the in-place sort. -/
def rrGE (a b : Candidate) : Prop := rsKey b ≤ rsKey a

instance : DecidableRel rrGE := fun a b => inferInstanceAs (Decidable (rsKey b ≤ rsKey a))

instance : IsTotal Candidate rrGE := ⟨fun a b => le_total (rsKey b) (rsKey a)⟩

instance : IsTrans Candidate rrGE := ⟨fun _ _ _ h1 h2 => le_trans h2 h1⟩

/-- Embedding of `rerank_documents` (reranker.py lines 41-87).

Parameters standing for the external world:
* `sig` — the float sigmoid `_sigmoid`;
* `rr` — the cross-encoder: `none` models `get_reranker()` returning `None`
  (model unavailable), `some f` models a loaded model whose `predict` scores
  a `(query, text)` pair as `f query text`;
* `predictRaises` — whether the `try` body raises during prediction
  (the `except` branch at lines 83-85 returns `candidates[:top_n]` with the
  input untouched).

The function mutates its input list in place (score assignment and
`candidates.sort`), so the embedding is state-passing: the first component
of the result is the caller's list after the call, the second is the return
value.  Control flow line by line:
`if not candidates: return []`; if `rr is None` assign neutral scores and
return `candidates[:top_n]`; otherwise score every candidate, sort
descending by `rerank_score` (Python's stable sort, = `insertionSort` of the
total preorder `rrGE`), filter by `threshold` when given (the filter rebinds
the local name, so the caller's list stays the sorted unfiltered one), and
return the first `top_n`. -/
def rerank_documents (sig : ℚ → ℚ) (rr : Option (String → String → ℚ))
    (predictRaises : Bool) (query : String) (candidates : List Candidate)
    (top_n : ℕ) (threshold : Option ℚ) : List Candidate × List Candidate :=
  if candidates = [] then ([], [])
  else
    match rr with
    | none =>
        let cs := candidates.map fillNeutral
        (cs, cs.take top_n)
    | some f =>
        if predictRaises then (candidates, candidates.take top_n)
        else
          let scored := candidates.map (scoreCand sig f query)
          let sorted := List.insertionSort rrGE scored
          let filtered :=
            match threshold with
            | none => sorted
            | some t => sorted.filter (fun c => t ≤ rsKey c)
          (sorted, filtered.take top_n)

end Reranker

namespace Router

/-- One entry of the `agent_tasks` array of the router chain's JSON output,
as constructed or passed through by `QueryRouter.classify`
(`src/lex_bot/core/router.py`). -/
structure RTask where
  agent : String
  task_id : String
  instruction : String
  expected_output : String
  dependencies : List String
  deriving Repr, DecidableEq

/-- The JSON object produced by `self.chain.invoke` in `QueryRouter.classify`.
Keys may be absent (`Option`); `classify` only inspects `complexity` and
`agent_tasks` and passes everything else through unchanged. -/
structure RouterResult where
  complexity : Option String
  reasoning : Option String
  agent_tasks : Option (List RTask)
  synthesis_instruction : Option String
  synthesis_strategy : Option String
  domain_tags : Option (List String)
  deriving Repr, DecidableEq

/-- The generic-retrieval task substituted by `classify`
(router.py lines 126 and 135). -/
def fallbackTask (query : String) : RTask :=
  { agent := "research", task_id := "fallback", instruction := query
    expected_output := "General answer", dependencies := [] }

/-- The full degraded output of the `except` branch (router.py lines 130-139). -/
def exceptFallback (query e : String) : RouterResult :=
  { complexity := some "simple"
    reasoning := some ("Fallback: " ++ e)
    agent_tasks := some [fallbackTask query]
    synthesis_instruction := some "Provide helpful response"
    synthesis_strategy := some "equal_weight"
    domain_tags := some ["general"] }

/-- Embedding of `QueryRouter.classify` (router.py lines 116-139).  The LLM chain call is
modelled by `chainResult`: `.error e` is the chain raising an exception with
message `e`, `.ok r` is the parsed JSON it returned.  On success the result
is validated in place: a `complexity` outside `["simple", "complex"]`
(including a missing one) is overwritten with `"simple"`, and a falsy
`agent_tasks` (missing or the empty list) is replaced by the single
generic-retrieval fallback task.  On exception the fixed fallback dict is
returned; the exception is never re-raised. -/
def classify (query : String) (chainResult : Except String RouterResult) : RouterResult :=
  match chainResult with
  | .error e => exceptFallback query e
  | .ok r =>
      let r1 := if r.complexity = some "simple" ∨ r.complexity = some "complex" then r
                else { r with complexity := some "simple" }
      if r1.agent_tasks = none ∨ r1.agent_tasks = some [] then
        { r1 with agent_tasks := some [fallbackTask query] }
      else r1

end Router

namespace Manager

/-- One raw entry of `result.get("agent_tasks", [])` in
`ManagerAgent.classify_and_route` (`src/lex_bot/agents/manager.py`); every
key is read with a `.get` default, so all fields are optional. -/
structure MRawTask where
  agent : Option String
  task_id : Option String
  instruction : Option String
  expected_output : Option String
  dependencies : Option (List String)
  deriving Repr, DecidableEq

/-- The parsed JSON returned by the router chain in `classify_and_route`. -/
structure MResult where
  complexity : Option String
  agent_tasks : Option (List MRawTask)
  synthesis_instruction : Option String
  synthesis_strategy : Option String
  reasoning : Option String
  domain_tags : Option (List String)
  deriving Repr, DecidableEq

/-- The structured task object stored in the `agent_tasks` dict
(manager.py lines 61-66). -/
structure MTask where
  task_id : String
  instruction : String
  expected_output : String
  dependencies : List String
  deriving Repr, DecidableEq

/-- The state update returned by `classify_and_route`.  `agent_tasks` is the
Python dict keyed by full agent name, modelled as an insertion-ordered
association list with overwrite (`LawChat.setA`). -/
structure RouteUpdate where
  complexity : String
  selected_agents : List String
  agent_tasks : List (String × MTask)
  synthesis_instruction : String
  synthesis_strategy : String
  deriving Repr, DecidableEq

/-- The set `valid_agents` (manager.py line 51). -/
def validAgents : List String :=
  ["research", "explainer", "law", "case", "citation", "strategy"]

/-- One iteration of the `for task_item in agent_tasks_raw` loop
(manager.py lines 55-66): an item whose `agent` is not in `valid_agents` is
dropped; otherwise `"{agent}_agent"` is appended to `selected_agents` and the
structured task (with `.get` defaults) is written into the dict. -/
def taskStep (acc : List String × List (String × MTask)) (ti : MRawTask) :
    List String × List (String × MTask) :=
  let name := ti.agent.getD ""
  if validAgents.contains name then
    let full := name ++ "_agent"
    (acc.1 ++ [full],
     LawChat.setA acc.2 full
       { task_id := ti.task_id.getD name
         instruction := ti.instruction.getD "Perform research"
         expected_output := ti.expected_output.getD "Summary"
         dependencies := ti.dependencies.getD [] })
  else acc

/-- The law-side fallback task (manager.py line 71). -/
def lawFallback : MTask :=
  { task_id := "law_fallback", instruction := "Find relevant statutes"
    expected_output := "Statute list", dependencies := [] }

/-- The case-side fallback task (manager.py line 72). -/
def caseFallback : MTask :=
  { task_id := "case_fallback", instruction := "Find relevant cases"
    expected_output := "Case list", dependencies := [] }

/-- Embedding of `ManagerAgent.classify_and_route` (manager.py lines 11-100), from the
chain invocation on.  `chainResult` models `chain.invoke`: `.error` is an
exception (caught at line 92, returning the degraded simple update), `.ok`
the parsed JSON.  On success: `complexity = result.get("complexity",
"simple")` with no further validation; the task loop filters unknown agent
kinds; if `complexity == "complex"` and no agent survived, the two fallback
tasks are substituted (lines 69-72). -/
def classify_and_route (chainResult : Except String MResult) : RouteUpdate :=
  match chainResult with
  | .error _ =>
      { complexity := "simple", selected_agents := [], agent_tasks := []
        synthesis_instruction := "Provide helpful response"
        synthesis_strategy := "equal_weight" }
  | .ok result =>
      let complexity := result.complexity.getD "simple"
      let raw := result.agent_tasks.getD []
      let built := raw.foldl taskStep ([], [])
      let selected := built.1
      let tasks := built.2
      let selected2 := if complexity = "complex" ∧ selected = []
        then ["law_agent", "case_agent"] else selected
      let tasks2 := if complexity = "complex" ∧ selected = []
        then LawChat.setA (LawChat.setA tasks "law_agent" lawFallback) "case_agent" caseFallback
        else tasks
      { complexity := complexity
        selected_agents := selected2
        agent_tasks := tasks2
        synthesis_instruction :=
          result.synthesis_instruction.getD "Combine all agent outputs into cohesive response"
        synthesis_strategy := result.synthesis_strategy.getD "equal_weight" }

end Manager

namespace LexGraph

/-- The slice of the LangGraph `AgentState` read by the routing functions of
`define_graph` (`src/lex_bot/graph.py`). -/
structure GState where
  needs_clarification : Bool
  selected_agents : List String
  final_answer : Option String
  deriving Repr, DecidableEq

/-- Embedding of `route_after_clarification` (graph.py lines 170-182): if the state says
clarification is needed, skip straight to `memory_store` (the final answer
already holds the clarifying questions); otherwise go to the first selected
agent, or `manager_aggregate` when none was selected.  NOTE: this function
is defined inside `define_graph` but never attached to any edge. -/
def route_after_clarification (state : GState) : String :=
  if state.needs_clarification then "memory_store"
  else
    match state.selected_agents with
    | [] => "manager_aggregate"
    | a :: _ => a

/-- The valid node list of `route_to_agents` (graph.py line 190). -/
def validNodes : List String :=
  ["research_agent", "explainer_agent", "law_agent", "case_agent",
   "citation_agent", "strategy_agent"]

/-- Embedding of `route_to_agents` (graph.py lines 185-197): keep the selected agents that
are valid node names; if none remain, fan out to `law_agent` and
`case_agent`.  The `needs_clarification` flag is never consulted. -/
def route_to_agents (state : GState) : List String :=
  let routes := state.selected_agents.filter (fun a => validNodes.contains a)
  if routes = [] then ["law_agent", "case_agent"] else routes

/-- The conditional edge actually attached to the `check_clarification` node
by `workflow.add_conditional_edges("check_clarification", route_to_agents, …)`
(graph.py lines 200-205): it is `route_to_agents`, not
`route_after_clarification`. -/
def check_clarification_edge (state : GState) : List String :=
  route_to_agents state

/-- The state update produced by `ManagerAgent.check_needs_clarification`
(manager.py lines 216-264) when the ambiguity check returns
`needs_clarification = true` with a non-empty question list: the flag is set
and `final_answer` becomes the formatted clarification request built from the
first three questions. -/
def clarificationUpdate (questions : List String) (state : GState) : GState :=
  { state with
    needs_clarification := true
    final_answer := some
      ((questions.take 3).foldl (fun acc q => acc ++ q ++ "\n")
        "I need a bit more information to provide the best answer:\n\n") }

end LexGraph

namespace HybridSearch

/-- One row returned by the hybrid SQL query of `hybrid_search`
(`src/search.py` lines 50-81): the SQL store is external, so rows are an
input of the embedding.  `lex` is `ts_rank(...)`, `distance` the pgvector
cosine distance. -/
structure DbRow where
  id : ℕ
  doc_id : ℕ
  heading : String
  text : String
  parent_text : Option String
  year : Option Int
  category : Option String
  title : String
  lex : ℚ
  distance : ℚ
  deriving Repr, DecidableEq

/-- A fused candidate as built by `hybrid_search` (search.py lines 160-172). -/
structure SearchCand where
  id : ℕ
  doc_id : ℕ
  title : String
  heading : String
  text : String
  search_hit : String
  year : Option Int
  category : Option String
  lex_score : ℚ
  sem_score : ℚ
  score : ℚ
  deriving Repr, DecidableEq

/-- Embedding of `zscore` (search.py lines 136-142): on fewer than 2 members, or when the
standard deviation is below `1e-9`, every member maps to zero; otherwise each
value is standardized.  `sqrtQ` models `numpy`'s float square root used
inside `x.std()` (population standard deviation, the square root of the mean
squared deviation). -/
def zscore (sqrtQ : ℚ → ℚ) (x : List ℚ) : List ℚ :=
  if x.length < 2 then x.map (fun _ => 0)
  else
    let mu := x.sum / x.length
    let sigma := sqrtQ ((x.map (fun v => (v - mu) ^ 2)).sum / x.length)
    if sigma < 1 / 1000000000 then x.map (fun _ => 0)
    else x.map (fun v => (v - mu) / sigma)

/-- The fusion weight `alpha = 0.4` (search.py line 150). -/
def alpha : ℚ := 2/5

/-- Candidate construction for row `r` with z-scores `lz`/`sz`
(search.py lines 152-172): `score = alpha*lex_z + (1-alpha)*sem_z`;
`sem` is the negated distance; the returned `text` is the parent text when
present and non-empty (Python truthiness), else the child text. -/
def mkCand (r : DbRow) (lz sz : ℚ) : SearchCand :=
  { id := r.id, doc_id := r.doc_id, title := r.title, heading := r.heading
    text := LawChat.pyOrStr r.parent_text r.text
    search_hit := r.text
    year := r.year, category := r.category
    lex_score := r.lex
    sem_score := -r.distance
    score := alpha * lz + (1 - alpha) * sz }

/-- Descending order on the fused score used by
`cands.sort(key=lambda x: x['score'], reverse=True)`. -/
def scGE (a b : SearchCand) : Prop := b.score ≤ a.score

instance : DecidableRel scGE := fun a b => inferInstanceAs (Decidable (b.score ≤ a.score))

instance : IsTotal SearchCand scGE := ⟨fun a b => le_total b.score a.score⟩

instance : IsTrans SearchCand scGE := ⟨fun _ _ _ h1 h2 => le_trans h2 h1⟩

/-- The score-fusion half of `hybrid_search` (search.py lines 122-178), from
`if not rows: return []` on; the SQL retrieval feeding `rows` is external.
Lexical scores and negated distances are z-scored across the candidate set,
fused with weight `alpha`, the candidates sorted by fused score descending
(stable sort) and truncated to `mmr_k`. -/
def hybrid_search (sqrtQ : ℚ → ℚ) (rows : List DbRow) (mmr_k : ℕ) : List SearchCand :=
  if rows = [] then []
  else
    let lex_z := zscore sqrtQ (rows.map (·.lex))
    let sem_z := zscore sqrtQ (rows.map (fun r => -r.distance))
    let cands := (rows.zip (lex_z.zip sem_z)).map (fun p => mkCand p.1 p.2.1 p.2.2)
    (List.insertionSort scGE cands).take mmr_k

end HybridSearch

namespace WebSearch

/-- One search hit as normalized by the provider wrappers in
`WebSearchTool` (`src/lex_bot/tools/web_search.py`). -/
structure WebResult where
  title : String
  url : String
  snippet : String
  source : Option String
  deriving Repr, DecidableEq

/-- The tagging loop `for r in res: r['source'] = name` (web_search.py lines 208 and 219). -/
def tagSource (name : String) (rs : List WebResult) : List WebResult :=
  rs.map (fun r => { r with source := some name })

/-- The URL-deduplication loop (web_search.py lines 224-231): keep the first
occurrence of each non-empty URL; results with a falsy URL are dropped. -/
def dedupByUrl (rs : List WebResult) : List WebResult :=
  (rs.foldl
    (fun (acc : List String × List WebResult) r =>
      if r.url ≠ "" ∧ ¬ acc.1.contains r.url then (acc.1 ++ [r.url], acc.2 ++ [r])
      else acc)
    ([], [])).2

/-- Observable outcome of one `WebSearchTool.run` call: the deduplicated
result list together with which fallback providers were invoked. -/
structure RunTrace where
  results : List WebResult
  serper_called : Bool
  google_called : Bool
  deriving Repr, DecidableEq

/-- Embedding of `WebSearchTool.run` (web_search.py lines 182-250), with every provider
call modelled as an input:
* `ddgRes` — what `_ddgs_search` returns (it catches its own exceptions and
  returns `[]`, as does the `future.result()` guard);
* `tavilyRes` — `none` when `self.tavily_client` is `None` (Tavily is then
  never submitted), otherwise the results of `_tavily_search`;
* `serperRes`, `googleRes` — what `_serper_search` / `_google_serp_search`
  would return if called.

DuckDuckGo and Tavily run in parallel and both futures are always collected,
so the merged list is their tagged concatenation in collection order.  The
merged list is deduplicated by URL; only if it is empty is `_serper_search`
called, and only if that returns no results is `_google_serp_search` called.
The final scraping step does not alter the result list and is omitted from
the trace (it is the opaque `scrape_urls`).

`mergedResults` is the parallel-merge stage (web_search.py lines 192-231):
DuckDuckGo and Tavily run in parallel and both futures are always collected,
so the merged list is their tagged concatenation in collection order,
deduplicated by URL. -/
def mergedResults (ddgRes : List WebResult) (tavilyRes : Option (List WebResult)) :
    List WebResult :=
  dedupByUrl (tagSource "DuckDuckGo" ddgRes ++
    (match tavilyRes with
     | none => []
     | some ts => tagSource "Tavily" ts))

/-- Continuation of the `WebSearchTool.run` embedding: the branch structure
after the merge (web_search.py lines 233-250). -/
def webSearchRun (ddgRes : List WebResult) (tavilyRes : Option (List WebResult))
    (serperRes googleRes : List WebResult) : RunTrace :=
  let unique := mergedResults ddgRes tavilyRes
  if unique = [] then
    if serperRes = [] then
      { results := googleRes, serper_called := true, google_called := true }
    else
      { results := serperRes, serper_called := true, google_called := false }
  else
    { results := unique, serper_called := false, google_called := false }

/-- Embedding of `SearchTool.run` (`src/lex_bot/tools/db_search.py` lines 97-117).
`db_results` is hard-coded to the empty list in the source
(line 105: `db_results = []  # Force empty to skip local DB`), so the
`if db_results:` branch is dead and the call always falls through to
`web_search_tool.run`. -/
def searchToolRun (ddgRes : List WebResult) (tavilyRes : Option (List WebResult))
    (serperRes googleRes : List WebResult) : RunTrace :=
  let db_results : List WebResult := []
  if db_results ≠ [] then
    { results := db_results, serper_called := false, google_called := false }
  else
    webSearchRun ddgRes tavilyRes serperRes googleRes

end WebSearch

namespace SessionCache

/-- A document dict as stored in a session (`src/lex_bot/tools/session_cache.py`).
Values of the fields involved in hashing and storage are strings; the only
numeric value ever attached is the `_score` of a search result, which is
modelled separately in the search result type. -/
abbrev Doc := List (String × String)

/-- Dict access `doc.get(k)`. -/
def dget (d : Doc) (k : String) : Option String := LawChat.lookupA k d

/-- The text-extraction chain of `add_documents` (session_cache.py line 110):
`doc.get(text_key, "") or doc.get("snippet", "") or doc.get("content", "")`
with Python falsy chaining. -/
def getText (textKey : String) (d : Doc) : String :=
  LawChat.pyOrStr (dget d textKey)
    (LawChat.pyOrStr (dget d "snippet") (LawChat.pyOrStr (dget d "content") ""))

/-- The stored content hash `doc["_hash"]` of a document. -/
def docHash (d : Doc) : Option String := dget d "_hash"

/-- One per-session record of `self._sessions[session_id]`
(session_cache.py lines 72-77).  The FAISS index is external; only its size
(the number of embeddings added, always kept equal to the number of stored
documents) is tracked. -/
structure SessionData where
  indexSize : ℕ
  documents : List Doc
  created_at : ℕ
  last_accessed : ℕ
  deriving Repr, DecidableEq

/-- The mutable state of a `SessionCache` instance: `self._initialized`,
`self._sessions`, `self._hashes` (Python sets modelled as lists with
membership), `self._file_paths` and `self._file_chunks`.  Python dicts are
insertion-ordered association lists updated with `LawChat.setA`.  Wall-clock
time (`datetime.now()`) is an explicit `now : ℕ` argument of each
operation. -/
structure CacheState where
  initOk : Bool
  sessions : List (String × SessionData)
  hashes : List (String × List String)
  file_paths : List (String × String)
  file_chunks : List (String × List String)
  deriving Repr, DecidableEq

/-- The fresh record created for an unseen session (lines 72-77). -/
def newSession (now : ℕ) : SessionData :=
  { indexSize := 0, documents := [], created_at := now, last_accessed := now }

/-- The refresh `self._sessions[session_id]["last_accessed"] = datetime.now()` (line 80). -/
def touch (now : ℕ) (l : List (String × SessionData)) (sid : String) :
    List (String × SessionData) :=
  l.map (fun p => if p.1 = sid then (p.1, { p.2 with last_accessed := now }) else p)

/-- Embedding of `_get_or_create_session` (session_cache.py lines 68-81): if the session
id is unknown, a fresh record and an empty hash set are installed; in every
case `last_accessed` is refreshed. -/
def get_or_create (now : ℕ) (st : CacheState) (sid : String) : CacheState :=
  let st1 :=
    if (LawChat.lookupA sid st.sessions).isNone then
      { st with sessions := LawChat.setA st.sessions sid (newSession now)
                hashes := LawChat.setA st.hashes sid [] }
    else st
  { st1 with sessions := touch now st1.sessions sid }

/-- The `for doc in documents` loop of `add_documents` (lines 109-123),
with `h` modelling `_get_content_hash` (SHA-256 of the UTF-8 text, an
injective-in-practice external hash).  Given the session's current hash set
`hs` it returns the final hash set, the new documents (each with `_hash`
attached via dict update), the new texts, and `added_count`.  A document
with empty extracted text, or whose content hash is already in the set, is
skipped; otherwise its hash is added to the set before the next document is
examined (so duplicates inside one batch are also deduplicated). -/
def addLoop (h : String → String) (textKey : String) (hs : List String) :
    List Doc → List String × List Doc × List String × ℕ
  | [] => (hs, [], [], 0)
  | d :: ds =>
      let t := getText textKey d
      if t = "" then addLoop h textKey hs ds
      else
        let ch := h t
        if hs.contains ch then addLoop h textKey hs ds
        else
          let r := addLoop h textKey (hs ++ [ch]) ds
          (r.1, LawChat.setA d "_hash" ch :: r.2.1, t :: r.2.2.1, r.2.2.2 + 1)

/-- Embedding of `SessionCache.add_documents` (session_cache.py lines 83-134), returning
the new state and `added_count`.  If the cache is uninitialized nothing
happens; otherwise the session is created/refreshed, the dedup loop runs
(mutating the session's hash set), and — when at least one new text
survived — the embeddings are added to the index and the new documents
appended. -/
def add_documents (h : String → String) (now : ℕ) (st : CacheState)
    (sid : String) (docs : List Doc) (textKey : String) : CacheState × ℕ :=
  if !st.initOk then (st, 0)
  else
    let st1 := get_or_create now st sid
    let hs0 := (LawChat.lookupA sid st1.hashes).getD []
    let r := addLoop h textKey hs0 docs
    let st2 := { st1 with hashes := LawChat.setA st1.hashes sid r.1 }
    if r.2.2.1 = [] then (st2, 0)
    else
      ({ st2 with sessions := st2.sessions.map (fun p =>
          if p.1 = sid then
            (p.1, { p.2 with documents := p.2.documents ++ r.2.1
                             indexSize := p.2.indexSize + r.2.2.1.length })
          else p) },
       r.2.2.2)

/-- Embedding of `SessionCache.search` (session_cache.py lines 136-181), returning the new
state and the scored documents.  `faiss` models `index.search` on the
session's index: given the session record, the query and `k`, it returns the
`(score, index)` pairs of the top hits.  An uninitialized cache, an unknown
session id, or a session with no documents yields the empty result; the
unknown-session check happens before `_get_or_create_session`, so in that
case the state is returned untouched.  Hits with an index outside the
document list are dropped; each surviving hit is the stored document paired
with its score (`doc.copy()` plus `_score`). -/
def search (faiss : SessionData → String → ℕ → List (ℚ × ℤ)) (now : ℕ)
    (st : CacheState) (sid query : String) (top_k : ℕ) :
    CacheState × List (Doc × ℚ) :=
  if !st.initOk then (st, [])
  else if (LawChat.lookupA sid st.sessions).isNone then (st, [])
  else
    let st1 := get_or_create now st sid
    let sd := (LawChat.lookupA sid st1.sessions).getD (newSession now)
    if sd.documents = [] then (st1, [])
    else
      let k := min top_k sd.documents.length
      let hits := faiss sd query k
      let results := hits.foldl
        (fun acc (p : ℚ × ℤ) =>
          if 0 ≤ p.2 ∧ p.2 < (sd.documents.length : ℤ) then
            acc ++ [(sd.documents.getD p.2.toNat [], p.1)]
          else acc)
        []
      (st1, results)

/-- Embedding of `SessionCache.set_file_path` (session_cache.py lines 189-193): ensures
the session exists, then records the path. -/
def set_file_path (now : ℕ) (st : CacheState) (sid path : String) : CacheState :=
  let st1 := get_or_create now st sid
  { st1 with file_paths := LawChat.setA st1.file_paths sid path }

/-- The documents stored for a session. -/
def sessionDocs (st : CacheState) (sid : String) : List Doc :=
  ((LawChat.lookupA sid st.sessions).map SessionData.documents).getD []

/-- The content-hash set stored for a session. -/
def sessionHashes (st : CacheState) (sid : String) : List String :=
  (LawChat.lookupA sid st.hashes).getD []

/-- The per-session cache invariant: every stored document carries a `_hash`
that is a member of the session's hash set, and no two documents of one
session share a content hash. -/
def HashInv (st : CacheState) : Prop :=
  ∀ sid, (∀ d ∈ sessionDocs st sid, ∃ ch, docHash d = some ch ∧ ch ∈ sessionHashes st sid)
    ∧ (sessionDocs st sid).Pairwise (fun a b => docHash a ≠ docHash b)

end SessionCache

/-! ## Helper lemmas about the dict model -/

namespace LawChat

theorem lookupA_append_single {β : Type} (l : List (String × β)) (k k' : String) (v : β) :
    lookupA k' (l ++ [(k, v)]) =
      match lookupA k' l with
      | some w => some w
      | none => if k = k' then some v else none := by
  induction l with
  | nil => simp [lookupA]
  | cons p t ih =>
    by_cases hp : p.1 = k'
    · simp [lookupA, hp]
    · simp [lookupA, hp, ih]

theorem lookupA_map_replace {β : Type} (l : List (String × β)) (k : String) (v : β)
    (h : (lookupA k l).isSome) :
    lookupA k (l.map (fun q => if q.1 = k then (k, v) else q)) = some v := by
  induction l with
  | nil => simp [lookupA] at h
  | cons p t ih =>
    by_cases hk : p.1 = k
    · simp only [List.map_cons, if_pos hk]
      simp [lookupA]
    · have h' : (lookupA k t).isSome := by simpa [lookupA, hk] using h
      simp only [List.map_cons, if_neg hk]
      simp [lookupA, hk, ih h']

theorem lookupA_map_replace_ne {β : Type} (l : List (String × β)) (k k' : String) (v : β)
    (h : k' ≠ k) :
    lookupA k' (l.map (fun q => if q.1 = k then (k, v) else q)) = lookupA k' l := by
  induction l with
  | nil => simp [lookupA]
  | cons p t ih =>
    by_cases hk : p.1 = k
    · have hkk : ¬ k = k' := fun hh => h hh.symm
      have hp : ¬ p.1 = k' := fun hh => h (hh ▸ hk.symm ▸ rfl)
      simp only [List.map_cons, if_pos hk]
      simp [lookupA, hkk, hp, ih]
    · by_cases hp : p.1 = k'
      · simp only [List.map_cons, if_neg hk]
        simp [lookupA, hp]
      · simp only [List.map_cons, if_neg hk]
        simp [lookupA, hp, ih]

theorem lookupA_setA_self {β : Type} (l : List (String × β)) (k : String) (v : β) :
    lookupA k (setA l k v) = some v := by
  unfold setA
  by_cases hc : (lookupA k l).isSome
  · simpa [hc] using lookupA_map_replace l k v hc
  · have hn : lookupA k l = none := by
      cases hl : lookupA k l
      · rfl
      · rw [hl] at hc
        simp at hc
    simp [hc, lookupA_append_single, hn]

theorem lookupA_setA_ne {β : Type} (l : List (String × β)) (k k' : String) (v : β)
    (h : k' ≠ k) : lookupA k' (setA l k v) = lookupA k' l := by
  unfold setA
  by_cases hc : (lookupA k l).isSome
  · simpa [hc] using lookupA_map_replace_ne l k k' v h
  · have hkk : ¬ k = k' := fun hh => h hh.symm
    rw [if_neg hc, lookupA_append_single]
    cases hl : lookupA k' l
    · simp [hkk]
    · simp

end LawChat

/-! ## Claim C1 — clarification short-circuit (graph wiring) -/

/-- Claim C1 (code bug exhibit).  The spec says that when the one-shot
ambiguity check returns `needs_clarification = true` the run must terminate
with the clarification request and schedule no agent task.  The graph,
however, attaches `route_to_agents` — which never reads
`needs_clarification` — as the conditional edge out of `check_clarification`
(graph.py lines 200-205), while the function implementing the short-circuit,
`route_after_clarification`, is defined but never wired.  Concretely: after
the check fires on a state with `selected_agents = ["law_agent"]`, the wired
edge still routes to `law_agent`, whereas the unused router would have gone
to `memory_store`. -/
theorem C1_clarification_not_short_circuited :
    (LexGraph.clarificationUpdate ["Which jurisdiction applies?"]
      { needs_clarification := false, selected_agents := ["law_agent"],
        final_answer := none }).needs_clarification = true
  ∧ LexGraph.check_clarification_edge
      (LexGraph.clarificationUpdate ["Which jurisdiction applies?"]
        { needs_clarification := false, selected_agents := ["law_agent"],
          final_answer := none }) = ["law_agent"]
  ∧ LexGraph.route_after_clarification
      (LexGraph.clarificationUpdate ["Which jurisdiction applies?"]
        { needs_clarification := false, selected_agents := ["law_agent"],
          final_answer := none }) = "memory_store" := by
  refine ⟨rfl, ?_, rfl⟩
  rfl

/-! ## Claims C4, C5, C10 — reranker -/

/-- Claim C4, counterexample.  With the scoring model unavailable and a
threshold of `9/10` supplied, `rerank_documents` returns a fragment whose
`rerank_score` is the neutral `1/2 < 9/10`: the threshold guarantee of the
claim fails on the degraded path, which never filters. -/
theorem C4_threshold_counterexample :
    (Reranker.rerank_documents id none false "q"
        [{ title := none, heading := none, search_hit := none, text := none,
           rerank_score := none, raw_rerank_score := none, rest := [] }]
        10 (some (9/10))).2
      = [{ title := none, heading := none, search_hit := none, text := none,
           rerank_score := some (1/2), raw_rerank_score := none, rest := [] }]
  ∧ ¬ ((9 : ℚ)/10 ≤ (1 : ℚ)/2) := by
  constructor
  · rfl
  · norm_num

/-- Claim C5, counterexample.  In the model-unavailable fallback a candidate
that already carries a `rerank_score` keeps it (reranker.py line 54 guards
with `if 'rerank_score' not in c`), so not every fragment receives the fixed
score `1/2`. -/
theorem C5_passthrough_counterexample :
    (Reranker.rerank_documents id none false "q"
        [{ title := none, heading := none, search_hit := none, text := none,
           rerank_score := some (9/10), raw_rerank_score := none, rest := [] }]
        10 none).2
      = [{ title := none, heading := none, search_hit := none, text := none,
           rerank_score := some (9/10), raw_rerank_score := none, rest := [] }]
  ∧ (9 : ℚ)/10 ≠ (1 : ℚ)/2 := by
  constructor
  · rfl
  · norm_num

/-- Claim C5, as amended.  When the scoring model is unavailable,
`rerank_documents` is a pass-through: the caller's list and the returned
list are the input in its original order (the latter truncated to `top_n`),
where each fragment that lacks a `rerank_score` receives the fixed neutral
score `1/2` and a fragment that already carries one keeps it unchanged.
Any supplied threshold is ignored on this path. -/
theorem C5_passthrough_amended (sig : ℚ → ℚ) (pr : Bool) (q : String)
    (cs : List Reranker.Candidate) (n : ℕ) (t : Option ℚ) :
    Reranker.rerank_documents sig none pr q cs n t
      = (cs.map Reranker.fillNeutral, (cs.map Reranker.fillNeutral).take n)
  ∧ ∀ c : Reranker.Candidate, Reranker.fillNeutral c
      = if c.rerank_score.isSome then c else { c with rerank_score := some (1/2) } := by
  constructor
  · unfold Reranker.rerank_documents
    by_cases h : cs = []
    · subst h
      simp
    · simp [h]
  · intro c
    rfl

/-- Claim C10.  When the scoring model is available (and prediction
succeeds), `rerank_documents` mutates its input in place: the caller's list
afterwards is exactly the stable descending sort (by `rerank_score`) of the
input candidates, each of which is the original candidate with precisely
the two fields `rerank_score` (the sigmoid of the raw score) and
`raw_rerank_score` (the raw cross-encoder score) set and every other field
unchanged; it is a permutation of the scored input and sorted descending. -/
theorem C10_rerank_inplace_mutation (sig : ℚ → ℚ) (f : String → String → ℚ)
    (q : String) (cs : List Reranker.Candidate) (n : ℕ) (t : Option ℚ) :
    (Reranker.rerank_documents sig (some f) false q cs n t).1
      = List.insertionSort Reranker.rrGE (cs.map (Reranker.scoreCand sig f q))
  ∧ ((Reranker.rerank_documents sig (some f) false q cs n t).1).Perm
      (cs.map (Reranker.scoreCand sig f q))
  ∧ List.Sorted Reranker.rrGE (Reranker.rerank_documents sig (some f) false q cs n t).1
  ∧ ∀ c, Reranker.scoreCand sig f q c =
      { c with rerank_score := some (sig (f q (Reranker.buildTextForRerank c)))
               raw_rerank_score := some (f q (Reranker.buildTextForRerank c)) } := by
  have h1 : (Reranker.rerank_documents sig (some f) false q cs n t).1
      = List.insertionSort Reranker.rrGE (cs.map (Reranker.scoreCand sig f q)) := by
    unfold Reranker.rerank_documents
    by_cases h : cs = []
    · subst h
      simp
    · simp only [h, if_neg (by simpa using h)]
      cases t <;> rfl
  refine ⟨h1, ?_, ?_, fun c => rfl⟩
  · rw [h1]
    exact List.perm_insertionSort _ _
  · rw [h1]
    exact List.sorted_insertionSort _ _

/-! ## Claim C2 — QueryRouter.classify -/

/-- Claim C2, counterexample.  When the classification call returns malformed
data — here a `complexity` of `"moderate"`, outside the enumerated values —
but a non-empty task list, `classify` only repairs the `complexity` field to
`"simple"` and keeps the returned tasks: the output is not the single
generic-retrieval task with no dependencies that the claim requires on any
failure (it has two tasks, one with a non-empty dependency list). -/
theorem C2_classify_counterexample :
    let cbad : Router.RouterResult :=
      { complexity := some "moderate", reasoning := none,
        agent_tasks := some
          [{ agent := "law", task_id := "stat", instruction := "Get statutes",
             expected_output := "List", dependencies := ["cases"] },
           { agent := "case", task_id := "cases", instruction := "Get cases",
             expected_output := "List", dependencies := [] }],
        synthesis_instruction := none, synthesis_strategy := none,
        domain_tags := none }
    Router.classify "q" (Except.ok cbad) = { cbad with complexity := some "simple" }
  ∧ cbad.complexity ≠ some "simple"
  ∧ cbad.complexity ≠ some "complex"
  ∧ (Router.classify "q" (Except.ok cbad)).agent_tasks ≠ some [Router.fallbackTask "q"]
  ∧ ∀ ts, (Router.classify "q" (Except.ok cbad)).agent_tasks = some ts →
      ts.length = 2 ∧ (ts.map Router.RTask.dependencies) = [["cases"], []] := by
  refine ⟨rfl, by decide, by decide, by decide, ?_⟩
  intro ts hts
  have h2 : ts =
      [{ agent := "law", task_id := "stat", instruction := "Get statutes",
         expected_output := "List", dependencies := ["cases"] },
       { agent := "case", task_id := "cases", instruction := "Get cases",
         expected_output := "List", dependencies := [] }] := by
    have := hts
    simp only [Router.classify] at this
    exact (Option.some_injective _ this).symm
  subst h2
  exact ⟨rfl, rfl⟩

/-- Claim C2, as amended.  `classify` always returns a structurally valid
decision (complexity one of the two enumerated values, non-empty task list)
and never propagates an exception (it is total over both chain outcomes).
When the classification call throws, it degrades to the full fallback:
complexity `"simple"` and exactly one generic-retrieval task with no
dependencies.  When the call merely returns malformed data, the fields are
repaired individually: a missing or empty task list is replaced by the same
single generic task, but an invalid complexity alone is rewritten to
`"simple"` while the returned tasks are kept. -/
theorem C2_classify_amended (q : String) (res : Except String Router.RouterResult) :
    ((Router.classify q res).complexity = some "simple"
      ∨ (Router.classify q res).complexity = some "complex")
  ∧ (∃ ts, (Router.classify q res).agent_tasks = some ts ∧ ts ≠ [])
  ∧ (∀ e, res = Except.error e →
      Router.classify q res = Router.exceptFallback q e
      ∧ (Router.exceptFallback q e).complexity = some "simple"
      ∧ (Router.exceptFallback q e).agent_tasks = some [Router.fallbackTask q]
      ∧ (Router.fallbackTask q).dependencies = [])
  ∧ (∀ r, res = Except.ok r → (r.agent_tasks = none ∨ r.agent_tasks = some []) →
      (Router.classify q res).agent_tasks = some [Router.fallbackTask q]) := by
  cases res with
  | error e =>
      refine ⟨Or.inl rfl, ⟨[Router.fallbackTask q], rfl, by simp⟩, ?_, ?_⟩
      · intro e' he
        cases he
        exact ⟨rfl, rfl, rfl, rfl⟩
      · intro r hr
        cases hr
  | ok r =>
      by_cases hcx : r.complexity = some "simple" ∨ r.complexity = some "complex"
      · by_cases hat : r.agent_tasks = none ∨ r.agent_tasks = some []
        · refine ⟨?_, ⟨[Router.fallbackTask q], ?_, by simp⟩, ?_, ?_⟩
          · simp [Router.classify, hcx, hat]
          · simp [Router.classify, hcx, hat]
          · intro e he
            cases he
          · intro r' hr _
            cases hr
            simp [Router.classify, hcx, hat]
        · cases h : r.agent_tasks with
          | none => exact absurd (Or.inl h) hat
          | some ts =>
            have hts : ts ≠ [] := by
              intro hnil
              exact hat (Or.inr (hnil ▸ h))
            refine ⟨?_, ⟨ts, ?_, hts⟩, ?_, ?_⟩
            · simp [Router.classify, hcx, hat]
            · simp [Router.classify, hcx, hat, h, hts]
            · intro e he
              cases he
            · intro r' hr hempty
              cases hr
              exact absurd hempty hat
      · by_cases hat : r.agent_tasks = none ∨ r.agent_tasks = some []
        · refine ⟨Or.inl ?_, ⟨[Router.fallbackTask q], ?_, by simp⟩, ?_, ?_⟩
          · simp [Router.classify, hcx, hat]
          · simp [Router.classify, hcx, hat]
          · intro e he
            cases he
          · intro r' hr _
            cases hr
            simp [Router.classify, hcx, hat]
        · cases h : r.agent_tasks with
          | none => exact absurd (Or.inl h) hat
          | some ts =>
            have hts : ts ≠ [] := by
              intro hnil
              exact hat (Or.inr (hnil ▸ h))
            refine ⟨Or.inl ?_, ⟨ts, ?_, hts⟩, ?_, ?_⟩
            · simp [Router.classify, hcx, hat]
            · simp [Router.classify, hcx, hat, h, hts]
            · intro e he
              cases he
            · intro r' hr hempty
              cases hr
              exact absurd hempty hat

/-- Claim C2, witness: the amended theorem applied to a concrete query and a
throwing chain call. -/
theorem C2_classify_witness :
    Router.classify "What is Section 302 IPC?" (Except.error "boom")
      = Router.exceptFallback "What is Section 302 IPC?" "boom"
  ∧ (Router.fallbackTask "What is Section 302 IPC?").dependencies = [] :=
  ⟨((C2_classify_amended "What is Section 302 IPC?" (Except.error "boom")).2.2.1
      "boom" rfl).1,
   ((C2_classify_amended "What is Section 302 IPC?" (Except.error "boom")).2.2.1
      "boom" rfl).2.2.2⟩

/-! ## Claim C3 — hybrid search score fusion -/

/-- Claim C3, counterexample.  On a single-row candidate set both z-scores
degenerate to zero, and the fused score is `alpha*0 + (1-alpha)*0 = 0` — the
combination does **not** fall back to the raw scores: the raw combination
`alpha*lex + (1-alpha)*(-distance)` here equals `9/10 ≠ 0`. -/
theorem C3_raw_fallback_counterexample :
    (HybridSearch.hybrid_search id
        [{ id := 1, doc_id := 1, heading := "h", text := "t", parent_text := none,
           year := none, category := none, title := "T", lex := 3, distance := 1/2 }]
        20).map HybridSearch.SearchCand.score = [0]
  ∧ HybridSearch.alpha * 3 + (1 - HybridSearch.alpha) * (-(1/2) : ℚ) = 9/10
  ∧ ((9 : ℚ)/10 ≠ 0) := by
  refine ⟨?_, by norm_num [HybridSearch.alpha], by norm_num⟩
  have hcand : HybridSearch.hybrid_search id
      [{ id := 1, doc_id := 1, heading := "h", text := "t", parent_text := none,
         year := none, category := none, title := "T", lex := 3, distance := 1/2 }]
      20
      = (List.insertionSort HybridSearch.scGE
          [HybridSearch.mkCand
            { id := 1, doc_id := 1, heading := "h", text := "t", parent_text := none,
              year := none, category := none, title := "T", lex := 3, distance := 1/2 }
            0 0]).take 20 := by
    unfold HybridSearch.hybrid_search
    simp [HybridSearch.zscore]
  rw [hcand]
  simp only [List.insertionSort, List.orderedInsert, List.take]
  have : (HybridSearch.mkCand
      { id := 1, doc_id := 1, heading := "h", text := "t", parent_text := none,
        year := none, category := none, title := "T", lex := 3, distance := 1/2 }
      0 0).score = 0 := by
    show HybridSearch.alpha * 0 + (1 - HybridSearch.alpha) * 0 = 0
    ring
  exact congrArg (fun q => [q]) this

/-- Claim C3, as amended.  For a candidate set with fewer than 2 members
z-scoring indeed yields zero for every member, but there is no fallback to
raw scores: the fused score of every returned candidate is zero (the raw
values are only carried along in the `lex_score`/`sem_score` fields). -/
theorem C3_degenerate_zscore_amended (sqrtQ : ℚ → ℚ) (rows : List HybridSearch.DbRow)
    (k : ℕ) (h : rows.length < 2) :
    HybridSearch.zscore sqrtQ (rows.map (·.lex)) = (rows.map (·.lex)).map (fun _ => 0)
  ∧ HybridSearch.zscore sqrtQ (rows.map (fun r => -r.distance))
      = (rows.map (fun r => -r.distance)).map (fun _ => 0)
  ∧ ∀ c ∈ HybridSearch.hybrid_search sqrtQ rows k, c.score = 0 := by
  have hz : ∀ x : List ℚ, x.length < 2 →
      HybridSearch.zscore sqrtQ x = x.map (fun _ => 0) := by
    intro x hx
    unfold HybridSearch.zscore
    simp [hx]
  refine ⟨hz _ (by simpa using h), hz _ (by simpa using h), ?_⟩
  match rows with
  | [] =>
      intro c hc
      simp [HybridSearch.hybrid_search] at hc
  | [r] =>
      intro c hc
      have hcand : HybridSearch.hybrid_search sqrtQ [r] k
          = (List.insertionSort HybridSearch.scGE
              [HybridSearch.mkCand r 0 0]).take k := by
        unfold HybridSearch.hybrid_search
        simp [HybridSearch.zscore]
      rw [hcand] at hc
      simp only [List.insertionSort, List.orderedInsert] at hc
      have hc' : c ∈ [HybridSearch.mkCand r 0 0] := List.mem_of_mem_take hc
      have : c = HybridSearch.mkCand r 0 0 := by simpa using hc'
      subst this
      show HybridSearch.alpha * 0 + (1 - HybridSearch.alpha) * 0 = 0
      ring
  | a :: b :: t =>
      exfalso
      simp at h
      omega

/-- Claim C3, witness: the amended theorem applied to a concrete single-row
candidate set. -/
theorem C3_degenerate_zscore_witness :
    HybridSearch.zscore id [(3 : ℚ)] = [0]
  ∧ (HybridSearch.mkCand
      { id := 1, doc_id := 1, heading := "h", text := "t", parent_text := none,
        year := none, category := none, title := "T", lex := 3, distance := 1/2 }
      0 0).score = 0 := by
  constructor
  · have := (C3_degenerate_zscore_amended id
      [{ id := 1, doc_id := 1, heading := "h", text := "t", parent_text := none,
         year := none, category := none, title := "T", lex := 3, distance := 1/2 }]
      20 (by norm_num)).1
    simpa using this
  · have hmem : HybridSearch.mkCand
        { id := 1, doc_id := 1, heading := "h", text := "t", parent_text := none,
          year := none, category := none, title := "T", lex := 3, distance := 1/2 }
        0 0
        ∈ HybridSearch.hybrid_search id
          [{ id := 1, doc_id := 1, heading := "h", text := "t", parent_text := none,
             year := none, category := none, title := "T", lex := 3, distance := 1/2 }]
          20 := by
      unfold HybridSearch.hybrid_search
      simp [HybridSearch.zscore]
    exact (C3_degenerate_zscore_amended id
      [{ id := 1, doc_id := 1, heading := "h", text := "t", parent_text := none,
         year := none, category := none, title := "T", lex := 3, distance := 1/2 }]
      20 (by norm_num)).2.2 _ hmem

/-- Claim C4, as amended.  The reranker's output length is ≤ `top_n` on every
path (success, model-unavailable fallback, and prediction-failure fallback).
The threshold guarantee holds on the path where the scoring model is
available and prediction succeeds: every returned fragment then satisfies
`threshold ≤ rerank_score`, and its `rerank_score` is the sigmoid image of
its raw cross-encoder score; whenever the sigmoid maps into `[0,1]` (as the
float logistic does), every returned `rerank_score` lies in `[0,1]`.  On the
degraded model-unavailable path the threshold is not applied (see the
counterexample). -/
theorem C4_reranker_amended :
    (∀ (sig : ℚ → ℚ) (rr : Option (String → String → ℚ)) (pr : Bool) (q : String)
        (cs : List Reranker.Candidate) (n : ℕ) (t : Option ℚ),
        (Reranker.rerank_documents sig rr pr q cs n t).2.length ≤ n)
  ∧ (∀ (sig : ℚ → ℚ) (f : String → String → ℚ) (q : String)
        (cs : List Reranker.Candidate) (n : ℕ) (thr : ℚ) (c : Reranker.Candidate),
        c ∈ (Reranker.rerank_documents sig (some f) false q cs n (some thr)).2 →
        thr ≤ Reranker.rsKey c
        ∧ ∃ r, c.raw_rerank_score = some r ∧ c.rerank_score = some (sig r))
  ∧ (∀ sig : ℚ → ℚ, (∀ x, 0 ≤ sig x ∧ sig x ≤ 1) →
        ∀ (f : String → String → ℚ) (q : String) (cs : List Reranker.Candidate)
          (n : ℕ) (t : Option ℚ) (c : Reranker.Candidate),
        c ∈ (Reranker.rerank_documents sig (some f) false q cs n t).2 →
        0 ≤ Reranker.rsKey c ∧ Reranker.rsKey c ≤ 1) := by
  have hlen : ∀ (l : List Reranker.Candidate) (n : ℕ), (l.take n).length ≤ n := by
    intro l n
    simp [List.length_take]
  refine ⟨?_, ?_, ?_⟩
  · intro sig rr pr q cs n t
    by_cases hcs : cs = []
    · simp [Reranker.rerank_documents, hcs]
    · cases rr with
      | none => simp [Reranker.rerank_documents, hcs]
      | some f =>
          cases pr with
          | true => simp [Reranker.rerank_documents, hcs]
          | false =>
              cases t with
              | none => simp [Reranker.rerank_documents, hcs]
              | some thr => simp [Reranker.rerank_documents, hcs]
  · intro sig f q cs n thr c hc
    by_cases hcs : cs = []
    · simp [Reranker.rerank_documents, hcs] at hc
    · have hout : (Reranker.rerank_documents sig (some f) false q cs n (some thr)).2
          = ((List.insertionSort Reranker.rrGE
              (cs.map (Reranker.scoreCand sig f q))).filter
                (fun c => decide (thr ≤ Reranker.rsKey c))).take n := by
        simp [Reranker.rerank_documents, hcs]
      rw [hout] at hc
      have hc1 := List.mem_of_mem_take hc
      rw [List.mem_filter] at hc1
      obtain ⟨hcm, hpred⟩ := hc1
      have hthr : thr ≤ Reranker.rsKey c := of_decide_eq_true hpred
      have hcm2 : c ∈ cs.map (Reranker.scoreCand sig f q) :=
        (List.mem_insertionSort _).1 hcm
      obtain ⟨c0, _, rfl⟩ := List.mem_map.1 hcm2
      exact ⟨hthr, ⟨f q (Reranker.buildTextForRerank c0), rfl, rfl⟩⟩
  · intro sig hsig f q cs n t c hc
    by_cases hcs : cs = []
    · simp [Reranker.rerank_documents, hcs] at hc
    · have hc1 : c ∈ List.insertionSort Reranker.rrGE
          (cs.map (Reranker.scoreCand sig f q)) := by
        cases t with
        | none =>
            have hout : (Reranker.rerank_documents sig (some f) false q cs n none).2
                = (List.insertionSort Reranker.rrGE
                    (cs.map (Reranker.scoreCand sig f q))).take n := by
              simp [Reranker.rerank_documents, hcs]
            rw [hout] at hc
            exact List.mem_of_mem_take hc
        | some thr =>
            have hout : (Reranker.rerank_documents sig (some f) false q cs n (some thr)).2
                = ((List.insertionSort Reranker.rrGE
                    (cs.map (Reranker.scoreCand sig f q))).filter
                      (fun c => decide (thr ≤ Reranker.rsKey c))).take n := by
              simp [Reranker.rerank_documents, hcs]
            rw [hout] at hc
            exact ((List.mem_filter).1 (List.mem_of_mem_take hc)).1
      have hcm2 : c ∈ cs.map (Reranker.scoreCand sig f q) :=
        (List.mem_insertionSort _).1 hc1
      obtain ⟨c0, _, rfl⟩ := List.mem_map.1 hcm2
      have hk : Reranker.rsKey (Reranker.scoreCand sig f q c0)
          = sig (f q (Reranker.buildTextForRerank c0)) := rfl
      rw [hk]
      exact hsig _

/-- Claim C4, witness: the amended theorem applied to a concrete candidate,
model and threshold. -/
theorem C4_reranker_witness :
    (Reranker.rerank_documents (fun _ => (1 : ℚ)/2) (some (fun _ _ => (3 : ℚ)))
        false "q"
        [{ title := none, heading := none, search_hit := none, text := none,
           rerank_score := none, raw_rerank_score := none, rest := [] }]
        5 (some ((1 : ℚ)/4))).2.length ≤ 5
  ∧ (1 : ℚ)/4 ≤ Reranker.rsKey
      { title := none, heading := none, search_hit := none, text := none,
        rerank_score := some ((1 : ℚ)/2), raw_rerank_score := some 3, rest := [] }
  ∧ ((0 : ℚ) ≤ Reranker.rsKey
      { title := none, heading := none, search_hit := none, text := none,
        rerank_score := some ((1 : ℚ)/2), raw_rerank_score := some 3, rest := [] }
    ∧ Reranker.rsKey
      { title := none, heading := none, search_hit := none, text := none,
        rerank_score := some ((1 : ℚ)/2), raw_rerank_score := some 3, rest := [] } ≤ 1) := by
  have hmem : ({ title := none, heading := none, search_hit := none, text := none,
                 rerank_score := some ((1 : ℚ)/2), raw_rerank_score := some 3,
                 rest := [] } : Reranker.Candidate)
      ∈ (Reranker.rerank_documents (fun _ => (1 : ℚ)/2) (some (fun _ _ => (3 : ℚ)))
          false "q"
          [{ title := none, heading := none, search_hit := none, text := none,
             rerank_score := none, raw_rerank_score := none, rest := [] }]
          5 (some ((1 : ℚ)/4))).2 := by
    unfold Reranker.rerank_documents
    norm_num [Reranker.scoreCand, Reranker.rsKey, List.insertionSort,
      List.filter]
  exact ⟨C4_reranker_amended.1 _ _ _ _ _ _ _,
    (C4_reranker_amended.2.1 _ _ _ _ _ _ _ hmem).1,
    C4_reranker_amended.2.2 _ (fun x => by norm_num) _ _ _ _ _ _ hmem⟩

/-! ## Claim C7 — fallback cascade ordering -/

/-- Claim C7.  The DB stage of `SearchTool.run` always falls through to
`WebSearchTool.run` (its result list is hard-coded empty), and in the web
cascade a lower-priority provider is never invoked when a higher-priority
stage produced results: Serper is called only if the URL-deduplicated merge
of the parallel DuckDuckGo/Tavily stage is empty, and Google SERP only if
additionally Serper returned zero results; when the merged set is non-empty
it is returned as-is and neither fallback runs. -/
theorem C7_fallback_cascade (ddg : List WebSearch.WebResult)
    (tavily : Option (List WebSearch.WebResult))
    (serper google : List WebSearch.WebResult) :
    WebSearch.searchToolRun ddg tavily serper google
      = WebSearch.webSearchRun ddg tavily serper google
  ∧ (WebSearch.mergedResults ddg tavily ≠ [] →
      (WebSearch.webSearchRun ddg tavily serper google).results
        = WebSearch.mergedResults ddg tavily
      ∧ (WebSearch.webSearchRun ddg tavily serper google).serper_called = false
      ∧ (WebSearch.webSearchRun ddg tavily serper google).google_called = false)
  ∧ ((WebSearch.webSearchRun ddg tavily serper google).serper_called = true →
      WebSearch.mergedResults ddg tavily = [])
  ∧ ((WebSearch.webSearchRun ddg tavily serper google).google_called = true →
      WebSearch.mergedResults ddg tavily = [] ∧ serper = []) := by
  refine ⟨by simp [WebSearch.searchToolRun], ?_, ?_, ?_⟩
  · intro hm
    simp [WebSearch.webSearchRun, hm]
  · intro hs
    by_cases hm : WebSearch.mergedResults ddg tavily = []
    · exact hm
    · simp [WebSearch.webSearchRun, hm] at hs
  · intro hg
    by_cases hm : WebSearch.mergedResults ddg tavily = []
    · by_cases hs : serper = []
      · exact ⟨hm, hs⟩
      · simp [WebSearch.webSearchRun, hm, hs] at hg
    · simp [WebSearch.webSearchRun, hm] at hg

/-- Claim C7, witness: with DuckDuckGo returning one result, no Tavily
client and both fallback providers available, the merged set is non-empty
and no fallback provider is called. -/
theorem C7_fallback_cascade_witness :
    (WebSearch.webSearchRun
        [{ title := "t", url := "http://a", snippet := "s", source := none }] none
        [{ title := "x", url := "http://b", snippet := "y", source := none }] []).results
      = WebSearch.mergedResults
          [{ title := "t", url := "http://a", snippet := "s", source := none }] none
  ∧ (WebSearch.webSearchRun
        [{ title := "t", url := "http://a", snippet := "s", source := none }] none
        [{ title := "x", url := "http://b", snippet := "y", source := none }] []).serper_called
      = false
  ∧ (WebSearch.webSearchRun
        [{ title := "t", url := "http://a", snippet := "s", source := none }] none
        [{ title := "x", url := "http://b", snippet := "y", source := none }] []).google_called
      = false :=
  (C7_fallback_cascade
      [{ title := "t", url := "http://a", snippet := "s", source := none }] none
      [{ title := "x", url := "http://b", snippet := "y", source := none }] []).2.1
    (by decide)

/-! ## Claim C8 — complex-query fallback task substitution -/

theorem foldl_taskStep_all_invalid (raw : List Manager.MRawTask)
    (h : ∀ ti ∈ raw, ¬ Manager.validAgents.contains (ti.agent.getD "")) :
    ∀ acc, raw.foldl Manager.taskStep acc = acc := by
  induction raw with
  | nil => intro acc; rfl
  | cons ti rest ih =>
      intro acc
      have hstep : Manager.taskStep acc ti = acc := by
        have hni : ¬ (Manager.validAgents.contains (ti.agent.getD "") = true) :=
          h ti (List.mem_cons_self ti rest)
        unfold Manager.taskStep
        rw [if_neg hni]
      rw [List.foldl_cons, hstep]
      exact ih (fun x hx => h x (List.mem_cons_of_mem ti hx)) acc

/-- Claim C8.  For a planner output classified `"complex"` whose task list is
empty after dropping entries with unknown agent kinds, `classify_and_route`
substitutes exactly two fallback tasks with no dependencies: the generic
statute-retrieval task keyed `law_agent` and the generic case-retrieval task
keyed `case_agent`. -/
theorem C8_complex_fallback (res : Manager.MResult)
    (hc : res.complexity = some "complex")
    (hinv : ∀ ti ∈ res.agent_tasks.getD [],
      ¬ Manager.validAgents.contains (ti.agent.getD "")) :
    Manager.classify_and_route (Except.ok res)
      = { complexity := "complex"
          selected_agents := ["law_agent", "case_agent"]
          agent_tasks := [("law_agent", Manager.lawFallback),
                          ("case_agent", Manager.caseFallback)]
          synthesis_instruction :=
            res.synthesis_instruction.getD "Combine all agent outputs into cohesive response"
          synthesis_strategy := res.synthesis_strategy.getD "equal_weight" }
  ∧ Manager.lawFallback.dependencies = []
  ∧ Manager.caseFallback.dependencies = [] := by
  refine ⟨?_, rfl, rfl⟩
  have hfold := foldl_taskStep_all_invalid (res.agent_tasks.getD []) hinv ([], [])
  simp [Manager.classify_and_route, hc, hfold, LawChat.setA, LawChat.lookupA]

/-- Claim C8, witness: a concrete `"complex"` output whose only task names
the unknown agent kind `"wizard"`. -/
theorem C8_complex_fallback_witness :
    Manager.classify_and_route (Except.ok
      { complexity := some "complex",
        agent_tasks := some [{ agent := some "wizard", task_id := none,
                               instruction := none, expected_output := none,
                               dependencies := none }],
        synthesis_instruction := none, synthesis_strategy := none,
        reasoning := none, domain_tags := none })
      = { complexity := "complex"
          selected_agents := ["law_agent", "case_agent"]
          agent_tasks := [("law_agent", Manager.lawFallback),
                          ("case_agent", Manager.caseFallback)]
          synthesis_instruction := "Combine all agent outputs into cohesive response"
          synthesis_strategy := "equal_weight" }
  ∧ Manager.lawFallback.dependencies = []
  ∧ Manager.caseFallback.dependencies = [] :=
  C8_complex_fallback
    { complexity := some "complex",
      agent_tasks := some [{ agent := some "wizard", task_id := none,
                             instruction := none, expected_output := none,
                             dependencies := none }],
      synthesis_instruction := none, synthesis_strategy := none,
      reasoning := none, domain_tags := none }
    rfl (by decide)

/-! ## Claim C9 — search on an unknown session -/

theorem touch_map_fst (now : ℕ) (l : List (String × SessionCache.SessionData))
    (sid : String) :
    (SessionCache.touch now l sid).map Prod.fst = l.map Prod.fst := by
  unfold SessionCache.touch
  rw [List.map_map]
  apply List.map_congr_left
  intro p _
  by_cases hp : p.1 = sid <;> simp [hp]

/-- Claim C9.  A `search` on a session id not present in the cache returns
the empty list and leaves the state completely unchanged (the unknown-session
check precedes `_get_or_create_session`); moreover no `search` call ever
creates a session record — the set of session keys is always preserved. -/
theorem C9_search_unknown_session
    (faiss : SessionCache.SessionData → String → ℕ → List (ℚ × ℤ))
    (now : ℕ) (st : SessionCache.CacheState) (sid query : String) (top_k : ℕ) :
    (LawChat.lookupA sid st.sessions = none →
      SessionCache.search faiss now st sid query top_k = (st, []))
  ∧ ((SessionCache.search faiss now st sid query top_k).1.sessions.map Prod.fst
      = st.sessions.map Prod.fst) := by
  constructor
  · intro h
    cases hb : st.initOk <;> simp [SessionCache.search, hb, h]
  · cases hb : st.initOk with
    | false => simp [SessionCache.search, hb]
    | true =>
        cases hl : LawChat.lookupA sid st.sessions with
        | none => simp [SessionCache.search, hb, hl]
        | some sd0 =>
            unfold SessionCache.search
            simp only [hb, Bool.not_true, Bool.false_eq_true, if_false, hl,
              Option.isNone_some]
            split
            · simp [SessionCache.get_or_create, hl, touch_map_fst]
            · simp [SessionCache.get_or_create, hl, touch_map_fst]

/-- Claim C9, witness: a lookup on the empty cache state. -/
theorem C9_search_unknown_session_witness :
    SessionCache.search (fun _ _ _ => []) 0
      { initOk := true, sessions := [], hashes := [], file_paths := [],
        file_chunks := [] } "s1" "query" 5
      = ({ initOk := true, sessions := [], hashes := [], file_paths := [],
           file_chunks := [] }, []) :=
  (C9_search_unknown_session (fun _ _ _ => []) 0
      { initOk := true, sessions := [], hashes := [], file_paths := [],
        file_chunks := [] } "s1" "query" 5).1 rfl

/-! ## Claim C6 — session-cache deduplication: helper lemmas -/

theorem lookupA_mapval_self {β : Type} (g : β → β) (l : List (String × β)) (k : String) :
    LawChat.lookupA k (l.map (fun p => if p.1 = k then (p.1, g p.2) else p))
      = (LawChat.lookupA k l).map g := by
  induction l with
  | nil => simp [LawChat.lookupA]
  | cons p t ih =>
      simp only [List.map_cons]
      by_cases hp : p.1 = k
      · rw [if_pos hp]
        show (if p.1 = k then some (g p.2)
          else LawChat.lookupA k (t.map (fun p => if p.1 = k then (p.1, g p.2) else p)))
          = Option.map g (if p.1 = k then some p.2 else LawChat.lookupA k t)
        rw [if_pos hp, if_pos hp]
        rfl
      · rw [if_neg hp]
        show (if p.1 = k then some p.2
          else LawChat.lookupA k (t.map (fun p => if p.1 = k then (p.1, g p.2) else p)))
          = Option.map g (if p.1 = k then some p.2 else LawChat.lookupA k t)
        rw [if_neg hp, if_neg hp, ih]

theorem lookupA_mapval_ne {β : Type} (g : β → β) (l : List (String × β)) (k k' : String)
    (h : k' ≠ k) :
    LawChat.lookupA k' (l.map (fun p => if p.1 = k then (p.1, g p.2) else p))
      = LawChat.lookupA k' l := by
  induction l with
  | nil => simp [LawChat.lookupA]
  | cons p t ih =>
      simp only [List.map_cons]
      by_cases hpk : p.1 = k
      · rw [if_pos hpk]
        have hp : ¬ p.1 = k' := by
          rw [hpk]
          exact fun hh => h hh.symm
        show (if p.1 = k' then some (g p.2)
          else LawChat.lookupA k' (t.map (fun p => if p.1 = k then (p.1, g p.2) else p)))
          = (if p.1 = k' then some p.2 else LawChat.lookupA k' t)
        rw [if_neg hp, if_neg hp, ih]
      · rw [if_neg hpk]
        show (if p.1 = k' then some p.2
          else LawChat.lookupA k' (t.map (fun p => if p.1 = k then (p.1, g p.2) else p)))
          = (if p.1 = k' then some p.2 else LawChat.lookupA k' t)
        by_cases hp : p.1 = k'
        · rw [if_pos hp, if_pos hp]
        · rw [if_neg hp, if_neg hp, ih]

theorem goc_sessions_lookup (now : ℕ) (st : SessionCache.CacheState) (sid : String) :
    LawChat.lookupA sid (SessionCache.get_or_create now st sid).sessions
      = some { (LawChat.lookupA sid st.sessions).getD (SessionCache.newSession now) with
               last_accessed := now } := by
  unfold SessionCache.get_or_create SessionCache.touch
  by_cases hp : (LawChat.lookupA sid st.sessions).isNone
  · have hn : LawChat.lookupA sid st.sessions = none := by
      cases hll : LawChat.lookupA sid st.sessions
      · rfl
      · rw [hll] at hp
        simp at hp
    rw [if_pos hp]
    rw [lookupA_mapval_self
      (fun sd : SessionCache.SessionData => { sd with last_accessed := now }),
      LawChat.lookupA_setA_self]
    simp [hn]
  · obtain ⟨sd, hsd⟩ : ∃ sd, LawChat.lookupA sid st.sessions = some sd := by
      cases hll : LawChat.lookupA sid st.sessions
      · rw [hll] at hp
        simp at hp
      · exact ⟨_, rfl⟩
    rw [if_neg hp]
    rw [lookupA_mapval_self
      (fun sd : SessionCache.SessionData => { sd with last_accessed := now })]
    simp [hsd]

theorem goc_sessions_lookup_ne (now : ℕ) (st : SessionCache.CacheState) (sid sid' : String)
    (h : sid' ≠ sid) :
    LawChat.lookupA sid' (SessionCache.get_or_create now st sid).sessions
      = LawChat.lookupA sid' st.sessions := by
  unfold SessionCache.get_or_create SessionCache.touch
  by_cases hp : (LawChat.lookupA sid st.sessions).isNone
  · rw [if_pos hp]
    rw [lookupA_mapval_ne
      (fun sd : SessionCache.SessionData => { sd with last_accessed := now }) _ _ _ h,
      LawChat.lookupA_setA_ne _ _ _ _ h]
  · rw [if_neg hp]
    rw [lookupA_mapval_ne
      (fun sd : SessionCache.SessionData => { sd with last_accessed := now }) _ _ _ h]

theorem goc_hashes (now : ℕ) (st : SessionCache.CacheState) (sid : String) :
    (SessionCache.get_or_create now st sid).hashes
      = if (LawChat.lookupA sid st.sessions).isNone
        then LawChat.setA st.hashes sid [] else st.hashes := by
  unfold SessionCache.get_or_create SessionCache.touch
  by_cases hp : (LawChat.lookupA sid st.sessions).isNone
  · rw [if_pos hp, if_pos hp]
  · rw [if_neg hp, if_neg hp]

theorem goc_docs_self (now : ℕ) (st : SessionCache.CacheState) (sid : String) :
    SessionCache.sessionDocs (SessionCache.get_or_create now st sid) sid
      = SessionCache.sessionDocs st sid := by
  unfold SessionCache.sessionDocs
  rw [goc_sessions_lookup]
  cases hll : LawChat.lookupA sid st.sessions <;>
    simp [hll, SessionCache.newSession]

theorem goc_hashes_self (now : ℕ) (st : SessionCache.CacheState) (sid : String) :
    SessionCache.sessionHashes (SessionCache.get_or_create now st sid) sid
      = if (LawChat.lookupA sid st.sessions).isNone
        then [] else SessionCache.sessionHashes st sid := by
  unfold SessionCache.sessionHashes
  rw [goc_hashes]
  by_cases hp : (LawChat.lookupA sid st.sessions).isNone
  · rw [if_pos hp, if_pos hp, LawChat.lookupA_setA_self]
    rfl
  · rw [if_neg hp, if_neg hp]

theorem goc_docs_ne (now : ℕ) (st : SessionCache.CacheState) (sid sid' : String)
    (h : sid' ≠ sid) :
    SessionCache.sessionDocs (SessionCache.get_or_create now st sid) sid'
      = SessionCache.sessionDocs st sid' := by
  unfold SessionCache.sessionDocs
  rw [goc_sessions_lookup_ne _ _ _ _ h]

theorem goc_hashes_ne (now : ℕ) (st : SessionCache.CacheState) (sid sid' : String)
    (h : sid' ≠ sid) :
    SessionCache.sessionHashes (SessionCache.get_or_create now st sid) sid'
      = SessionCache.sessionHashes st sid' := by
  unfold SessionCache.sessionHashes
  rw [goc_hashes]
  by_cases hp : (LawChat.lookupA sid st.sessions).isNone
  · rw [if_pos hp, LawChat.lookupA_setA_ne _ _ _ _ h]
  · rw [if_neg hp]

theorem contains_iff_mem (l : List String) (x : String) : l.contains x = true ↔ x ∈ l := by
  simp

theorem docHash_setA (d : SessionCache.Doc) (ch : String) :
    SessionCache.docHash (LawChat.setA d "_hash" ch) = some ch :=
  LawChat.lookupA_setA_self d "_hash" ch

theorem addLoop_cons (h : String → String) (tk : String) (hs : List String)
    (d : SessionCache.Doc) (ds : List SessionCache.Doc) :
    SessionCache.addLoop h tk hs (d :: ds)
      = if SessionCache.getText tk d = "" then SessionCache.addLoop h tk hs ds
        else if hs.contains (h (SessionCache.getText tk d))
        then SessionCache.addLoop h tk hs ds
        else ((SessionCache.addLoop h tk (hs ++ [h (SessionCache.getText tk d)]) ds).1,
              LawChat.setA d "_hash" (h (SessionCache.getText tk d))
                :: (SessionCache.addLoop h tk
                    (hs ++ [h (SessionCache.getText tk d)]) ds).2.1,
              SessionCache.getText tk d
                :: (SessionCache.addLoop h tk
                    (hs ++ [h (SessionCache.getText tk d)]) ds).2.2.1,
              (SessionCache.addLoop h tk
                  (hs ++ [h (SessionCache.getText tk d)]) ds).2.2.2 + 1) := rfl

theorem addLoop_spec (h : String → String) (tk : String) :
    ∀ (ds : List SessionCache.Doc) (hs : List String),
      (∀ x ∈ hs, x ∈ (SessionCache.addLoop h tk hs ds).1)
    ∧ (∀ d' ∈ (SessionCache.addLoop h tk hs ds).2.1,
        ∃ ch, SessionCache.docHash d' = some ch
          ∧ ch ∈ (SessionCache.addLoop h tk hs ds).1 ∧ ch ∉ hs)
    ∧ ((SessionCache.addLoop h tk hs ds).2.1).Pairwise
        (fun a b => SessionCache.docHash a ≠ SessionCache.docHash b) := by
  intro ds
  induction ds with
  | nil =>
      intro hs
      refine ⟨fun x hx => hx, ?_, ?_⟩
      · intro d' hd'
        simp [SessionCache.addLoop] at hd'
      · simp [SessionCache.addLoop]
  | cons d ds ih =>
      intro hs
      rw [addLoop_cons]
      by_cases ht : SessionCache.getText tk d = ""
      · rw [if_pos ht]
        exact ih hs
      · rw [if_neg ht]
        by_cases hc : hs.contains (h (SessionCache.getText tk d)) = true
        · rw [if_pos hc]
          exact ih hs
        · rw [if_neg hc]
          obtain ⟨ih1, ih2, ih3⟩ := ih (hs ++ [h (SessionCache.getText tk d)])
          have hchn : h (SessionCache.getText tk d) ∉ hs := fun hmem =>
            hc ((contains_iff_mem hs _).mpr hmem)
          refine ⟨?_, ?_, ?_⟩
          · intro x hx
            exact ih1 x (List.mem_append_left _ hx)
          · intro d' hd'
            rcases List.mem_cons.1 hd' with hd1 | hd2
            · refine ⟨h (SessionCache.getText tk d), ?_, ?_, hchn⟩
              · rw [hd1]
                exact docHash_setA d _
              · exact ih1 _ (List.mem_append_right _ (List.mem_singleton_self _))
            · obtain ⟨ch2, hch2, hin2, hnin2⟩ := ih2 d' hd2
              exact ⟨ch2, hch2, hin2, fun hmem => hnin2 (List.mem_append_left _ hmem)⟩
          · refine List.Pairwise.cons ?_ ih3
            intro d' hd'
            obtain ⟨ch2, hch2, _, hnin2⟩ := ih2 d' hd'
            have hne : ch2 ≠ h (SessionCache.getText tk d) := by
              intro hcheq
              refine hnin2 (List.mem_append_right _ ?_)
              rw [hcheq]
              exact List.mem_singleton_self _
            rw [docHash_setA, hch2]
            intro hcontra
            exact hne (Option.some_injective _ hcontra).symm

theorem sessionDocs_mapupd_self (l : List (String × SessionCache.SessionData))
    (sid : String) (nd : List SessionCache.Doc) (n : ℕ) :
    LawChat.lookupA sid (l.map (fun p => if p.1 = sid then
        (p.1, { p.2 with documents := p.2.documents ++ nd,
                         indexSize := p.2.indexSize + n }) else p))
      = (LawChat.lookupA sid l).map
          (fun sd => { sd with documents := sd.documents ++ nd,
                               indexSize := sd.indexSize + n }) :=
  lookupA_mapval_self
    (fun sd => { sd with documents := sd.documents ++ nd, indexSize := sd.indexSize + n })
    l sid

theorem sessionDocs_mapupd_ne (l : List (String × SessionCache.SessionData))
    (sid sid' : String) (nd : List SessionCache.Doc) (n : ℕ) (h : sid' ≠ sid) :
    LawChat.lookupA sid' (l.map (fun p => if p.1 = sid then
        (p.1, { p.2 with documents := p.2.documents ++ nd,
                         indexSize := p.2.indexSize + n }) else p))
      = LawChat.lookupA sid' l :=
  lookupA_mapval_ne
    (fun sd => { sd with documents := sd.documents ++ nd, indexSize := sd.indexSize + n })
    l sid sid' h

theorem add_documents_eq (h : String → String) (now : ℕ)
    (st : SessionCache.CacheState) (sid : String) (docs : List SessionCache.Doc)
    (tk : String) (hinit : st.initOk = true) :
    SessionCache.add_documents h now st sid docs tk
      = (if (SessionCache.addLoop h tk
              (SessionCache.sessionHashes (SessionCache.get_or_create now st sid) sid)
              docs).2.2.1 = []
         then ({ SessionCache.get_or_create now st sid with
                 hashes := LawChat.setA (SessionCache.get_or_create now st sid).hashes sid
                   (SessionCache.addLoop h tk
                     (SessionCache.sessionHashes (SessionCache.get_or_create now st sid) sid)
                     docs).1 }, 0)
         else ({ SessionCache.get_or_create now st sid with
                 hashes := LawChat.setA (SessionCache.get_or_create now st sid).hashes sid
                   (SessionCache.addLoop h tk
                     (SessionCache.sessionHashes (SessionCache.get_or_create now st sid) sid)
                     docs).1,
                 sessions := (SessionCache.get_or_create now st sid).sessions.map
                   (fun p => if p.1 = sid then
                     (p.1, { p.2 with
                       documents := p.2.documents
                         ++ (SessionCache.addLoop h tk
                             (SessionCache.sessionHashes
                               (SessionCache.get_or_create now st sid) sid) docs).2.1,
                       indexSize := p.2.indexSize
                         + (SessionCache.addLoop h tk
                             (SessionCache.sessionHashes
                               (SessionCache.get_or_create now st sid) sid) docs).2.2.1.length })
                     else p) },
               (SessionCache.addLoop h tk
                 (SessionCache.sessionHashes (SessionCache.get_or_create now st sid) sid)
                 docs).2.2.2)) := by
  unfold SessionCache.add_documents
  rw [hinit]
  rfl

theorem add_documents_dup_noop (h : String → String) (now : ℕ)
    (st : SessionCache.CacheState) (sid : String) (d : SessionCache.Doc) (tk : String)
    (hinit : st.initOk = true) (ht : SessionCache.getText tk d ≠ "")
    (hdup : h (SessionCache.getText tk d)
      ∈ SessionCache.sessionHashes (SessionCache.get_or_create now st sid) sid) :
    (SessionCache.add_documents h now st sid [d] tk).2 = 0
  ∧ (SessionCache.add_documents h now st sid [d] tk).1.sessions
      = (SessionCache.get_or_create now st sid).sessions
  ∧ SessionCache.sessionHashes (SessionCache.add_documents h now st sid [d] tk).1 sid
      = SessionCache.sessionHashes (SessionCache.get_or_create now st sid) sid := by
  have hr : SessionCache.addLoop h tk
      (SessionCache.sessionHashes (SessionCache.get_or_create now st sid) sid) [d]
      = (SessionCache.sessionHashes (SessionCache.get_or_create now st sid) sid,
         [], [], 0) := by
    rw [addLoop_cons, if_neg ht, if_pos ((contains_iff_mem _ _).mpr hdup)]
    rfl
  rw [add_documents_eq h now st sid [d] tk hinit, hr]
  refine ⟨by simp, by simp, ?_⟩
  simp [SessionCache.sessionHashes, LawChat.lookupA_setA_self]

theorem goc_initOk (now : ℕ) (st : SessionCache.CacheState) (sid : String) :
    (SessionCache.get_or_create now st sid).initOk = st.initOk := by
  unfold SessionCache.get_or_create SessionCache.touch
  by_cases hp : (LawChat.lookupA sid st.sessions).isNone
  · rw [if_pos hp]
  · rw [if_neg hp]

theorem add_documents_single_new (h : String → String) (now : ℕ)
    (st : SessionCache.CacheState) (sid : String) (d : SessionCache.Doc) (tk : String)
    (hinit : st.initOk = true) (ht : SessionCache.getText tk d ≠ "")
    (hfresh0 : h (SessionCache.getText tk d)
      ∉ SessionCache.sessionHashes (SessionCache.get_or_create now st sid) sid) :
    SessionCache.add_documents h now st sid [d] tk
      = ({ SessionCache.get_or_create now st sid with
           hashes := LawChat.setA (SessionCache.get_or_create now st sid).hashes sid
             (SessionCache.sessionHashes (SessionCache.get_or_create now st sid) sid
               ++ [h (SessionCache.getText tk d)]),
           sessions := (SessionCache.get_or_create now st sid).sessions.map
             (fun p => if p.1 = sid then
               (p.1, { p.2 with
                 documents := p.2.documents
                   ++ [LawChat.setA d "_hash" (h (SessionCache.getText tk d))],
                 indexSize := p.2.indexSize + [SessionCache.getText tk d].length })
               else p) },
         1) := by
  have hr1 : SessionCache.addLoop h tk
      (SessionCache.sessionHashes (SessionCache.get_or_create now st sid) sid) [d]
      = (SessionCache.sessionHashes (SessionCache.get_or_create now st sid) sid
          ++ [h (SessionCache.getText tk d)],
         [LawChat.setA d "_hash" (h (SessionCache.getText tk d))],
         [SessionCache.getText tk d], 1) := by
    rw [addLoop_cons, if_neg ht,
      if_neg (fun hcc => hfresh0 ((contains_iff_mem _ _).mp hcc))]
    rfl
  rw [add_documents_eq h now st sid [d] tk hinit, hr1]
  have hcond : ((SessionCache.sessionHashes (SessionCache.get_or_create now st sid) sid
      ++ [h (SessionCache.getText tk d)],
      [LawChat.setA d "_hash" (h (SessionCache.getText tk d))],
      [SessionCache.getText tk d], 1)
      : List String × List SessionCache.Doc × List String × ℕ).2.2.1 ≠ [] := by
    simp
  rw [if_neg hcond]

theorem add_documents_twice_unique (h : String → String) (now now' : ℕ)
    (st : SessionCache.CacheState) (sid : String) (d : SessionCache.Doc) (tk : String)
    (hinit : st.initOk = true) (ht : SessionCache.getText tk d ≠ "")
    (hfresh : h (SessionCache.getText tk d) ∉ SessionCache.sessionHashes st sid)
    (hsync : ∀ d' ∈ SessionCache.sessionDocs st sid,
      ∃ ch, SessionCache.docHash d' = some ch
        ∧ ch ∈ SessionCache.sessionHashes st sid) :
    (SessionCache.add_documents h now st sid [d] tk).2 = 1
  ∧ (SessionCache.add_documents h now'
      (SessionCache.add_documents h now st sid [d] tk).1 sid [d] tk).2 = 0
  ∧ (SessionCache.sessionDocs
      (SessionCache.add_documents h now'
        (SessionCache.add_documents h now st sid [d] tk).1 sid [d] tk).1 sid).countP
      (fun d' => decide (SessionCache.docHash d'
        = some (h (SessionCache.getText tk d)))) = 1 := by
  have hfresh0 : h (SessionCache.getText tk d)
      ∉ SessionCache.sessionHashes (SessionCache.get_or_create now st sid) sid := by
    rw [goc_hashes_self]
    by_cases hp : (LawChat.lookupA sid st.sessions).isNone
    · simp [hp]
    · simpa [hp] using hfresh
  have hadd1 := add_documents_single_new h now st sid d tk hinit ht hfresh0
  have hst2init : (SessionCache.add_documents h now st sid [d] tk).1.initOk = true := by
    rw [hadd1]
    dsimp only
    rw [goc_initOk]
    exact hinit
  have hst2docs : SessionCache.sessionDocs
      (SessionCache.add_documents h now st sid [d] tk).1 sid
      = SessionCache.sessionDocs st sid
        ++ [LawChat.setA d "_hash" (h (SessionCache.getText tk d))] := by
    rw [hadd1]
    unfold SessionCache.sessionDocs
    dsimp only
    rw [sessionDocs_mapupd_self, goc_sessions_lookup]
    cases hll : LawChat.lookupA sid st.sessions <;>
      simp [hll, SessionCache.newSession]
  have hst2hashes : SessionCache.sessionHashes
      (SessionCache.add_documents h now st sid [d] tk).1 sid
      = SessionCache.sessionHashes (SessionCache.get_or_create now st sid) sid
        ++ [h (SessionCache.getText tk d)] := by
    rw [hadd1]
    unfold SessionCache.sessionHashes
    dsimp only
    rw [LawChat.lookupA_setA_self]
    rfl
  have hst2lookup : (LawChat.lookupA sid
      (SessionCache.add_documents h now st sid [d] tk).1.sessions).isNone = false := by
    rw [hadd1]
    dsimp only
    rw [sessionDocs_mapupd_self, goc_sessions_lookup]
    rfl
  have hdup2 : h (SessionCache.getText tk d)
      ∈ SessionCache.sessionHashes
        (SessionCache.get_or_create now'
          (SessionCache.add_documents h now st sid [d] tk).1 sid) sid := by
    rw [goc_hashes_self, hst2lookup, if_neg Bool.false_ne_true, hst2hashes]
    exact List.mem_append_right _ (List.mem_singleton_self _)
  have hnoop := add_documents_dup_noop h now'
    (SessionCache.add_documents h now st sid [d] tk).1 sid d tk hst2init ht hdup2
  have hfinaldocs : SessionCache.sessionDocs
      (SessionCache.add_documents h now'
        (SessionCache.add_documents h now st sid [d] tk).1 sid [d] tk).1 sid
      = SessionCache.sessionDocs st sid
        ++ [LawChat.setA d "_hash" (h (SessionCache.getText tk d))] := by
    have h1 : SessionCache.sessionDocs
        (SessionCache.add_documents h now'
          (SessionCache.add_documents h now st sid [d] tk).1 sid [d] tk).1 sid
        = SessionCache.sessionDocs
            (SessionCache.get_or_create now'
              (SessionCache.add_documents h now st sid [d] tk).1 sid) sid := by
      unfold SessionCache.sessionDocs
      rw [hnoop.2.1]
    rw [h1, goc_docs_self, hst2docs]
  refine ⟨by rw [hadd1], hnoop.1, ?_⟩
  rw [hfinaldocs, List.countP_append]
  have hzero : (SessionCache.sessionDocs st sid).countP
      (fun d' => decide (SessionCache.docHash d'
        = some (h (SessionCache.getText tk d)))) = 0 := by
    rw [List.countP_eq_zero]
    intro a ha
    obtain ⟨ch2, hch2, hin2⟩ := hsync a ha
    have hne : ch2 ≠ h (SessionCache.getText tk d) := by
      intro hcheq
      exact hfresh (hcheq ▸ hin2)
    simp [hch2, hne]
  rw [hzero]
  simp [List.countP_cons, docHash_setA]

theorem hashInv_goc (now : ℕ) (st : SessionCache.CacheState) (sid : String)
    (hinv : SessionCache.HashInv st) :
    SessionCache.HashInv (SessionCache.get_or_create now st sid) := by
  intro sid'
  by_cases he : sid' = sid
  · subst he
    constructor
    · intro d hd
      rw [goc_docs_self] at hd
      obtain ⟨ch, hch, hin⟩ := (hinv sid').1 d hd
      refine ⟨ch, hch, ?_⟩
      rw [goc_hashes_self]
      by_cases hp : (LawChat.lookupA sid' st.sessions).isNone
      · exfalso
        have hn : LawChat.lookupA sid' st.sessions = none := by
          cases hll : LawChat.lookupA sid' st.sessions
          · rfl
          · rw [hll] at hp
            simp at hp
        unfold SessionCache.sessionDocs at hd
        rw [hn] at hd
        simp at hd
      · simpa [hp] using hin
    · rw [goc_docs_self]
      exact (hinv sid').2
  · constructor
    · intro d hd
      rw [goc_docs_ne _ _ _ _ he] at hd
      obtain ⟨ch, hch, hin⟩ := (hinv sid').1 d hd
      refine ⟨ch, hch, ?_⟩
      rw [goc_hashes_ne _ _ _ _ he]
      exact hin
    · rw [goc_docs_ne _ _ _ _ he]
      exact (hinv sid').2

theorem hashInv_add_documents (h : String → String) (now : ℕ)
    (st : SessionCache.CacheState) (sid : String) (docs : List SessionCache.Doc)
    (tk : String) (hinv : SessionCache.HashInv st) :
    SessionCache.HashInv (SessionCache.add_documents h now st sid docs tk).1 := by
  by_cases hinit : st.initOk = true
  · have hinv1 := hashInv_goc now st sid hinv
    obtain ⟨hsub, hnew, hpair⟩ := addLoop_spec h tk docs
      (SessionCache.sessionHashes (SessionCache.get_or_create now st sid) sid)
    rw [add_documents_eq h now st sid docs tk hinit]
    by_cases hrc : (SessionCache.addLoop h tk
        (SessionCache.sessionHashes (SessionCache.get_or_create now st sid) sid)
        docs).2.2.1 = []
    · rw [if_pos hrc]
      intro sid'
      by_cases he : sid' = sid
      · subst he
        constructor
        · intro d hd
          have hd' : d ∈ SessionCache.sessionDocs
              (SessionCache.get_or_create now st sid') sid' := hd
          obtain ⟨ch, hch, hin⟩ := (hinv1 sid').1 d hd'
          refine ⟨ch, hch, ?_⟩
          have hsh : SessionCache.sessionHashes
              ({ SessionCache.get_or_create now st sid' with
                 hashes := LawChat.setA (SessionCache.get_or_create now st sid').hashes sid'
                   (SessionCache.addLoop h tk
                     (SessionCache.sessionHashes
                       (SessionCache.get_or_create now st sid') sid') docs).1 }
                : SessionCache.CacheState) sid'
              = (SessionCache.addLoop h tk
                  (SessionCache.sessionHashes
                    (SessionCache.get_or_create now st sid') sid') docs).1 := by
            unfold SessionCache.sessionHashes
            dsimp only
            rw [LawChat.lookupA_setA_self]
            rfl
          rw [hsh]
          exact hsub ch hin
        · exact (hinv1 sid').2
      · constructor
        · intro d hd
          obtain ⟨ch, hch, hin⟩ := (hinv1 sid').1 d hd
          refine ⟨ch, hch, ?_⟩
          have hsh : SessionCache.sessionHashes
              ({ SessionCache.get_or_create now st sid with
                 hashes := LawChat.setA (SessionCache.get_or_create now st sid).hashes sid
                   (SessionCache.addLoop h tk
                     (SessionCache.sessionHashes
                       (SessionCache.get_or_create now st sid) sid) docs).1 }
                : SessionCache.CacheState) sid'
              = SessionCache.sessionHashes (SessionCache.get_or_create now st sid) sid' := by
            unfold SessionCache.sessionHashes
            dsimp only
            rw [LawChat.lookupA_setA_ne _ _ _ _ he]
          rw [hsh]
          exact hin
        · exact (hinv1 sid').2
    · rw [if_neg hrc]
      intro sid'
      by_cases he : sid' = sid
      · subst he
        have hdocsF : SessionCache.sessionDocs
            ({ SessionCache.get_or_create now st sid' with
               hashes := LawChat.setA (SessionCache.get_or_create now st sid').hashes sid'
                 (SessionCache.addLoop h tk
                   (SessionCache.sessionHashes
                     (SessionCache.get_or_create now st sid') sid') docs).1,
               sessions := (SessionCache.get_or_create now st sid').sessions.map
                 (fun p => if p.1 = sid' then
                   (p.1, { p.2 with
                     documents := p.2.documents
                       ++ (SessionCache.addLoop h tk
                           (SessionCache.sessionHashes
                             (SessionCache.get_or_create now st sid') sid') docs).2.1,
                     indexSize := p.2.indexSize
                       + (SessionCache.addLoop h tk
                           (SessionCache.sessionHashes
                             (SessionCache.get_or_create now st sid') sid') docs).2.2.1.length })
                   else p) } : SessionCache.CacheState) sid'
            = SessionCache.sessionDocs (SessionCache.get_or_create now st sid') sid'
              ++ (SessionCache.addLoop h tk
                  (SessionCache.sessionHashes
                    (SessionCache.get_or_create now st sid') sid') docs).2.1 := by
          unfold SessionCache.sessionDocs
          dsimp only
          rw [sessionDocs_mapupd_self]
          cases hll : LawChat.lookupA sid' (SessionCache.get_or_create now st sid').sessions
          · exfalso
            rw [goc_sessions_lookup] at hll
            cases hll
          · simp [hll]
        have hhashF : SessionCache.sessionHashes
            ({ SessionCache.get_or_create now st sid' with
               hashes := LawChat.setA (SessionCache.get_or_create now st sid').hashes sid'
                 (SessionCache.addLoop h tk
                   (SessionCache.sessionHashes
                     (SessionCache.get_or_create now st sid') sid') docs).1,
               sessions := (SessionCache.get_or_create now st sid').sessions.map
                 (fun p => if p.1 = sid' then
                   (p.1, { p.2 with
                     documents := p.2.documents
                       ++ (SessionCache.addLoop h tk
                           (SessionCache.sessionHashes
                             (SessionCache.get_or_create now st sid') sid') docs).2.1,
                     indexSize := p.2.indexSize
                       + (SessionCache.addLoop h tk
                           (SessionCache.sessionHashes
                             (SessionCache.get_or_create now st sid') sid') docs).2.2.1.length })
                   else p) } : SessionCache.CacheState) sid'
            = (SessionCache.addLoop h tk
                (SessionCache.sessionHashes
                  (SessionCache.get_or_create now st sid') sid') docs).1 := by
          unfold SessionCache.sessionHashes
          dsimp only
          rw [LawChat.lookupA_setA_self]
          rfl
        constructor
        · intro d hd
          rw [hdocsF] at hd
          rw [hhashF]
          rcases List.mem_append.1 hd with hd1 | hd2
          · obtain ⟨ch, hch, hin⟩ := (hinv1 sid').1 d hd1
            exact ⟨ch, hch, hsub ch hin⟩
          · obtain ⟨ch, hch, hin, _⟩ := hnew d hd2
            exact ⟨ch, hch, hin⟩
        · rw [hdocsF]
          rw [List.pairwise_append]
          refine ⟨(hinv1 sid').2, hpair, ?_⟩
          intro a ha b hb
          obtain ⟨cha, hcha, hina⟩ := (hinv1 sid').1 a ha
          obtain ⟨chb, hchb, _, hninb⟩ := hnew b hb
          rw [hcha, hchb]
          intro hcontra
          have : cha = chb := Option.some_injective _ hcontra
          exact hninb (this ▸ hina)
      · have hdocsF : SessionCache.sessionDocs
            ({ SessionCache.get_or_create now st sid with
               hashes := LawChat.setA (SessionCache.get_or_create now st sid).hashes sid
                 (SessionCache.addLoop h tk
                   (SessionCache.sessionHashes
                     (SessionCache.get_or_create now st sid) sid) docs).1,
               sessions := (SessionCache.get_or_create now st sid).sessions.map
                 (fun p => if p.1 = sid then
                   (p.1, { p.2 with
                     documents := p.2.documents
                       ++ (SessionCache.addLoop h tk
                           (SessionCache.sessionHashes
                             (SessionCache.get_or_create now st sid) sid) docs).2.1,
                     indexSize := p.2.indexSize
                       + (SessionCache.addLoop h tk
                           (SessionCache.sessionHashes
                             (SessionCache.get_or_create now st sid) sid) docs).2.2.1.length })
                   else p) } : SessionCache.CacheState) sid'
            = SessionCache.sessionDocs (SessionCache.get_or_create now st sid) sid' := by
          unfold SessionCache.sessionDocs
          dsimp only
          rw [sessionDocs_mapupd_ne _ _ _ _ _ he]
        have hhashF : SessionCache.sessionHashes
            ({ SessionCache.get_or_create now st sid with
               hashes := LawChat.setA (SessionCache.get_or_create now st sid).hashes sid
                 (SessionCache.addLoop h tk
                   (SessionCache.sessionHashes
                     (SessionCache.get_or_create now st sid) sid) docs).1,
               sessions := (SessionCache.get_or_create now st sid).sessions.map
                 (fun p => if p.1 = sid then
                   (p.1, { p.2 with
                     documents := p.2.documents
                       ++ (SessionCache.addLoop h tk
                           (SessionCache.sessionHashes
                             (SessionCache.get_or_create now st sid) sid) docs).2.1,
                     indexSize := p.2.indexSize
                       + (SessionCache.addLoop h tk
                           (SessionCache.sessionHashes
                             (SessionCache.get_or_create now st sid) sid) docs).2.2.1.length })
                   else p) } : SessionCache.CacheState) sid'
            = SessionCache.sessionHashes (SessionCache.get_or_create now st sid) sid' := by
          unfold SessionCache.sessionHashes
          dsimp only
          rw [LawChat.lookupA_setA_ne _ _ _ _ he]
        constructor
        · intro d hd
          rw [hdocsF] at hd
          rw [hhashF]
          exact (hinv1 sid').1 d hd
        · rw [hdocsF]
          exact (hinv1 sid').2
  · have hb : st.initOk = false := by
      cases hb2 : st.initOk
      · rfl
      · exact absurd hb2 hinit
    have heq : SessionCache.add_documents h now st sid docs tk = (st, 0) := by
      unfold SessionCache.add_documents
      rw [hb]
      rfl
    rw [heq]
    exact hinv

/-- Claim C6.  Session-cache deduplication by content hash:
(1) adding a document whose content hash is already in the session's hash set
is a no-op, not an error — the call returns 0 and leaves every session's
document store untouched;
(2) from any state satisfying the hash invariant, inserting the same body
text twice yields exactly one cache entry carrying that content hash (the
first call reports 1 added, the second 0);
(3) the hash-set invariant — every stored document's `_hash` is registered
in its session's hash set and no two documents of a session share a content
hash — is preserved by every `add_documents` call. -/
theorem C6_cache_dedup :
    (∀ (h : String → String) (now : ℕ) (st : SessionCache.CacheState) (sid : String)
        (d : SessionCache.Doc) (tk : String),
      st.initOk = true → SessionCache.getText tk d ≠ "" →
      h (SessionCache.getText tk d)
        ∈ SessionCache.sessionHashes (SessionCache.get_or_create now st sid) sid →
      (SessionCache.add_documents h now st sid [d] tk).2 = 0
      ∧ (SessionCache.add_documents h now st sid [d] tk).1.sessions
          = (SessionCache.get_or_create now st sid).sessions
      ∧ SessionCache.sessionHashes (SessionCache.add_documents h now st sid [d] tk).1 sid
          = SessionCache.sessionHashes (SessionCache.get_or_create now st sid) sid)
  ∧ (∀ (h : String → String) (now now' : ℕ) (st : SessionCache.CacheState)
        (sid : String) (d : SessionCache.Doc) (tk : String),
      st.initOk = true → SessionCache.getText tk d ≠ "" →
      h (SessionCache.getText tk d) ∉ SessionCache.sessionHashes st sid →
      SessionCache.HashInv st →
      (SessionCache.add_documents h now st sid [d] tk).2 = 1
      ∧ (SessionCache.add_documents h now'
          (SessionCache.add_documents h now st sid [d] tk).1 sid [d] tk).2 = 0
      ∧ (SessionCache.sessionDocs
          (SessionCache.add_documents h now'
            (SessionCache.add_documents h now st sid [d] tk).1 sid [d] tk).1 sid).countP
          (fun d' => decide (SessionCache.docHash d'
            = some (h (SessionCache.getText tk d)))) = 1)
  ∧ (∀ (h : String → String) (now : ℕ) (st : SessionCache.CacheState) (sid : String)
        (docs : List SessionCache.Doc) (tk : String),
      SessionCache.HashInv st →
      SessionCache.HashInv (SessionCache.add_documents h now st sid docs tk).1) := by
  refine ⟨?_, ?_, ?_⟩
  · intro h now st sid d tk hinit ht hdup
    exact add_documents_dup_noop h now st sid d tk hinit ht hdup
  · intro h now now' st sid d tk hinit ht hfresh hinv
    exact add_documents_twice_unique h now now' st sid d tk hinit ht hfresh
      (fun d' hd' => (hinv sid).1 d' hd')
  · intro h now st sid docs tk hinv
    exact hashInv_add_documents h now st sid docs tk hinv

/-- Claim C6, witness: inserting the body text `"hello"` twice into a fresh
cache for session `"s1"` (with the content hash modelled by the identity
function) adds one entry, then none, leaves exactly one entry with that
hash, and the resulting state satisfies the hash invariant. -/
theorem C6_cache_dedup_witness :
    (SessionCache.add_documents (fun s => s) 0
      { initOk := true, sessions := [], hashes := [], file_paths := [],
        file_chunks := [] } "s1" [[("text", "hello")]] "text").2 = 1
  ∧ (SessionCache.add_documents (fun s => s) 1
      (SessionCache.add_documents (fun s => s) 0
        { initOk := true, sessions := [], hashes := [], file_paths := [],
          file_chunks := [] } "s1" [[("text", "hello")]] "text").1
      "s1" [[("text", "hello")]] "text").2 = 0
  ∧ (SessionCache.sessionDocs
      (SessionCache.add_documents (fun s => s) 1
        (SessionCache.add_documents (fun s => s) 0
          { initOk := true, sessions := [], hashes := [], file_paths := [],
            file_chunks := [] } "s1" [[("text", "hello")]] "text").1
        "s1" [[("text", "hello")]] "text").1 "s1").countP
      (fun d' => decide (SessionCache.docHash d'
        = some ((fun s => s) (SessionCache.getText "text" [("text", "hello")])))) = 1
  ∧ SessionCache.HashInv
      (SessionCache.add_documents (fun s => s) 0
        { initOk := true, sessions := [], hashes := [], file_paths := [],
          file_chunks := [] } "s1" [[("text", "hello")]] "text").1 := by
  have hinv0 : SessionCache.HashInv
      { initOk := true, sessions := [], hashes := [], file_paths := [],
        file_chunks := [] } := by
    intro sid
    constructor
    · intro d hd
      simp [SessionCache.sessionDocs, LawChat.lookupA] at hd
    · simp [SessionCache.sessionDocs, LawChat.lookupA]
  have hb := C6_cache_dedup.2.1 (fun s => s) 0 1
    { initOk := true, sessions := [], hashes := [], file_paths := [],
      file_chunks := [] } "s1" [("text", "hello")] "text"
    rfl (by decide) (by decide) hinv0
  exact ⟨hb.1, hb.2.1, hb.2.2,
    C6_cache_dedup.2.2 (fun s => s) 0
      { initOk := true, sessions := [], hashes := [], file_paths := [],
        file_chunks := [] } "s1" [[("text", "hello")]] "text" hinv0⟩
